import Mathlib

/-!
Verification development for the snooker ball tracking core
(src/src/core/data_models.py, src/src/tracking/ball_tracker.py,
src/src/tracking/trajectory_analyzer.py, and
TableGeometry.is_point_near_pocket from
src/src/calibration/coordinate_transformer.py).

Conventions of the embedding:

* Python floats are modelled by exact rationals (ℚ).  `Point.distance_to`
  returns a square root, which ℚ cannot represent; every use in the
  modelled code compares a distance against a nonnegative threshold, so
  the embedding carries squared distances (`distanceSqTo`) and compares
  against squared thresholds, which is equivalent over the reals.
* Python dicts (`tracks`, `kalman_filters`, `ball_states`, the
  association dict) are insertion ordered; they are modelled by lists,
  keyed by track id, updated with `dictUpsert` which mirrors dict
  assignment (overwrite in place if present, append otherwise).
* Exceptions are modelled by `Except TrackError` / `Option`:
  `BallType(class_id)` raising `ValueError` on an unknown class id
  becomes `Detection.get_ball_type : Option BallType`, and
  `np.linalg.inv` raising `LinAlgError` on a singular matrix becomes
  `inv2 : .. → Option ..`.
* `time.time()` readings are made explicit: every function of the source
  that reads the wall clock takes a `now : ℚ` argument (the readings
  taken during one call are modelled as equal).
* `scipy.optimize.linear_sum_assignment` is external library code, not
  part of the repository; the tracker is therefore parameterised by an
  arbitrary `AssignSolver` (`none` models the solver raising), and a
  concrete brute-force model `lsaSolve` is provided for evaluation.
* The `arccos` of normalised float dot products in the trajectory
  analyzer is floating point trigonometry with no exact rational
  counterpart; the analyzer is parameterised by an arbitrary
  `AngleTest : Point → Point → Bool` standing for the test
  `angle between the two direction vectors > pi / 4`.  No claim below
  depends on its value, so all theorems quantify over it.
* The `tracking_stats` dictionary and the logging calls are pure
  bookkeeping with no influence on tracking results and are not
  modelled; likewise the float-valued summary fields of
  `analyze_trajectory` (`total_distance`, `average_speed`,
  `direction_changes`) which no modelled behaviour reads.
-/

attribute [local semireducible] Rat.mul Rat.add Rat.sub Rat.inv Rat.ofScientific

/-! ## Core data models (src/src/core/data_models.py) -/

/-- `BallType` enumeration, values 0..7 (data_models.py lines 12-21). -/
inductive BallType
  | CUE_BALL
  | YELLOW
  | RED
  | BROWN
  | GREEN
  | PINK
  | BLUE
  | BLACK
deriving DecidableEq, Repr

/-- 2D point (data_models.py `Point`). -/
structure Point where
  x : ℚ
  y : ℚ
deriving DecidableEq, Repr

/-- Square of `Point.distance_to` (data_models.py lines 29-31); the
source returns `sqrt((x1-x2)**2 + (y1-y2)**2)`, and every comparison of
that value in the modelled code is against a nonnegative threshold, so
the embedding compares squares. -/
def Point.distanceSqTo (p other : Point) : ℚ :=
  (p.x - other.x) ^ 2 + (p.y - other.y) ^ 2

/-- Bounding box (data_models.py `BoundingBox`). -/
structure BoundingBox where
  x1 : ℚ
  y1 : ℚ
  x2 : ℚ
  y2 : ℚ
deriving DecidableEq, Repr

/-- `BoundingBox.get_center` (data_models.py lines 45-47). -/
def BoundingBox.get_center (b : BoundingBox) : Point :=
  ⟨(b.x1 + b.x2) / 2, (b.y1 + b.y2) / 2⟩

/-- Ball detection result (data_models.py `Detection`); the capture
timestamp field is irrelevant to every modelled behaviour and omitted. -/
structure Detection where
  bbox : BoundingBox
  class_id : Int
  confidence : ℚ
deriving DecidableEq, Repr

/-- `Detection.get_centroid` (data_models.py lines 65-67). -/
def Detection.get_centroid (d : Detection) : Point :=
  d.bbox.get_center

/-- `Detection.get_ball_type` (data_models.py lines 69-71):
`BallType(self.class_id)` raises `ValueError` when `class_id` is not one
of the enumeration values 0..7; the raise is modelled by `none`. -/
def Detection.get_ball_type (d : Detection) : Option BallType :=
  match d.class_id with
  | 0 => some .CUE_BALL
  | 1 => some .YELLOW
  | 2 => some .RED
  | 3 => some .BROWN
  | 4 => some .GREEN
  | 5 => some .PINK
  | 6 => some .BLUE
  | 7 => some .BLACK
  | _ => none

/-- Tracked ball with trajectory history (data_models.py `TrackedBall`). -/
structure TrackedBall where
  track_id : Nat
  ball_type : BallType
  current_position : Point
  trajectory : List Point
  confidence_history : List ℚ
  last_seen_frame : Int
  is_active : Bool
  velocity : Option Point
deriving DecidableEq, Repr

/-- Python `l[-n:]`: the last `n` elements of `l` (all of `l` when it is
shorter than `n`). -/
def takeLast (n : Nat) (l : List α) : List α :=
  l.drop (l.length - n)

/-- `TrackedBall.update_position` (data_models.py lines 85-101).  The
guard `if self.current_position:` of the source is always true — a
`Point` dataclass instance is always truthy — so the velocity is set
unconditionally.  After appending, when the trajectory exceeds 100
entries both histories are cut to their last 50 entries. -/
def TrackedBall.update_position (b : TrackedBall) (new_position : Point)
    (confidence : ℚ) (frame_number : Int) : TrackedBall :=
  let vel : Point := ⟨new_position.x - b.current_position.x,
                      new_position.y - b.current_position.y⟩
  let traj := b.trajectory ++ [new_position]
  let conf := b.confidence_history ++ [confidence]
  if traj.length > 100 then
    { b with velocity := some vel, current_position := new_position,
             trajectory := takeLast 50 traj,
             confidence_history := takeLast 50 conf,
             last_seen_frame := frame_number }
  else
    { b with velocity := some vel, current_position := new_position,
             trajectory := traj, confidence_history := conf,
             last_seen_frame := frame_number }

/-- `TrackedBall.is_lost` (data_models.py lines 112-114). -/
def TrackedBall.is_lost (b : TrackedBall) (current_frame max_frames : Int) : Bool :=
  decide (current_frame - b.last_seen_frame > max_frames)

/-- Tracking configuration (data_models.py `TrackingConfig`). -/
structure TrackingConfig where
  max_disappeared_frames : Int
  max_tracking_distance : ℚ
  kalman_process_noise : ℚ
  kalman_measurement_noise : ℚ
  trajectory_smoothing : Bool
deriving DecidableEq, Repr

/-- The defaults of `TrackingConfig` (data_models.py lines 160-167). -/
def defaultTrackingConfig : TrackingConfig :=
  { max_disappeared_frames := 10, max_tracking_distance := 50,
    kalman_process_noise := 1/10, kalman_measurement_noise := 1/10,
    trajectory_smoothing := true }

/-! ## Kalman filter (ball_tracker.py `KalmanFilter`) -/

/-- The state transition matrix with time step `dt` substituted into the
position rows, as `predict` writes it (ball_tracker.py lines 24-29 and
54-56). -/
def Fmat (dt : ℚ) : Matrix (Fin 4) (Fin 4) ℚ :=
  Matrix.of ![![1, 0, dt, 0], ![0, 1, 0, dt], ![0, 0, 1, 0], ![0, 0, 0, 1]]

/-- The measurement matrix `H` (ball_tracker.py lines 32-35). -/
def Hmat : Matrix (Fin 2) (Fin 4) ℚ :=
  Matrix.of ![![1, 0, 0, 0], ![0, 1, 0, 0]]

/-- Kalman filter internal state (ball_tracker.py lines 16-46).  The
source stores the noise covariances `Q = eye(4) * process_noise` and
`R = eye(2) * measurement_noise` built once in `__init__`; the embedding
stores the two scalars and rebuilds the diagonal matrices in `Qmat` and
`Rmat`.  `self.F` is rewritten by every `predict` before use, so it is
not stored. -/
structure KalmanFilter where
  state : Fin 4 → ℚ
  P : Matrix (Fin 4) (Fin 4) ℚ
  process_noise : ℚ
  measurement_noise : ℚ
  last_update_time : ℚ

/-- `Q = np.eye(4) * process_noise` (ball_tracker.py line 38). -/
def KalmanFilter.Qmat (kf : KalmanFilter) : Matrix (Fin 4) (Fin 4) ℚ :=
  kf.process_noise • (1 : Matrix (Fin 4) (Fin 4) ℚ)

/-- `R = np.eye(2) * measurement_noise` (ball_tracker.py line 41). -/
def KalmanFilter.Rmat (kf : KalmanFilter) : Matrix (Fin 2) (Fin 2) ℚ :=
  kf.measurement_noise • (1 : Matrix (Fin 2) (Fin 2) ℚ)

/-- `KalmanFilter.__init__` (ball_tracker.py lines 19-46): state
`[x, y, 0, 0]`, error covariance `eye(4) * 1000`, and
`last_update_time = time.time()` modelled by the explicit `now`. -/
def KalmanFilter.init (initial_position : Point)
    (process_noise measurement_noise now : ℚ) : KalmanFilter :=
  { state := ![initial_position.x, initial_position.y, 0, 0],
    P := (1000 : ℚ) • (1 : Matrix (Fin 4) (Fin 4) ℚ),
    process_noise := process_noise,
    measurement_noise := measurement_noise,
    last_update_time := now }

/-- `KalmanFilter.predict` (ball_tracker.py lines 48-64).
`dt = time.time() - last_update_time` with the wall clock reading made
explicit; note the source does not advance `last_update_time` here (only
`update` does). -/
def KalmanFilter.predict (kf : KalmanFilter) (now : ℚ) : KalmanFilter × Point :=
  let dt := now - kf.last_update_time
  let F := Fmat dt
  let state := F.mulVec kf.state
  let P := F * kf.P * F.transpose + kf.Qmat
  ({ kf with state := state, P := P }, ⟨state 0, state 1⟩)

/-- Model of `np.linalg.inv` on the 2x2 innovation covariance
(ball_tracker.py line 80): explicit adjugate-over-determinant inverse,
with the `LinAlgError` raised on a singular matrix modelled by `none`. -/
def inv2 (S : Matrix (Fin 2) (Fin 2) ℚ) : Option (Matrix (Fin 2) (Fin 2) ℚ) :=
  let d := S 0 0 * S 1 1 - S 0 1 * S 1 0
  if d = 0 then none
  else some (Matrix.of ![![S 1 1 / d, -(S 0 1) / d], ![-(S 1 0) / d, S 0 0 / d]])

/-- `KalmanFilter.update` (ball_tracker.py lines 66-91): innovation,
innovation covariance, gain, corrected state and covariance; returns the
corrected position, or `none` when the matrix inversion raises. -/
def KalmanFilter.update (kf : KalmanFilter) (now : ℚ) (measurement : Point) :
    Option (KalmanFilter × Point) :=
  let z : Fin 2 → ℚ := ![measurement.x, measurement.y]
  let y := z - Hmat.mulVec kf.state
  let S := Hmat * kf.P * Hmat.transpose + kf.Rmat
  match inv2 S with
  | none => none
  | some Sinv =>
    let K := kf.P * Hmat.transpose * Sinv
    let state := kf.state + K.mulVec y
    let P := ((1 : Matrix (Fin 4) (Fin 4) ℚ) - K * Hmat) * kf.P
    some ({ kf with state := state, P := P, last_update_time := now },
          ⟨state 0, state 1⟩)

/-- `KalmanFilter.get_velocity` (ball_tracker.py lines 93-95). -/
def KalmanFilter.get_velocity (kf : KalmanFilter) : Point :=
  ⟨kf.state 2, kf.state 3⟩

/-- `KalmanFilter.get_position` (ball_tracker.py lines 97-99). -/
def KalmanFilter.get_position (kf : KalmanFilter) : Point :=
  ⟨kf.state 0, kf.state 1⟩

/-! ## Multi-object tracker (ball_tracker.py `BallTracker`) -/

/-- First entry of an insertion-ordered dict list with the given key. -/
def dictFind (l : List (Nat × α)) (k : Nat) : Option α :=
  (l.find? (fun p => p.1 == k)).map (·.2)

/-- Dict assignment `d[k] = v` on the list model: overwrite in place when
the key is present, append otherwise. -/
def dictUpsert (l : List (Nat × α)) (k : Nat) (v : α) : List (Nat × α) :=
  if l.any (fun p => p.1 == k) then
    l.map (fun p => if p.1 == k then (k, v) else p)
  else l ++ [(k, v)]

/-- `self.tracks[track_id]` lookup on the track list (the value stored
under a key always carries that key in its `track_id` field). -/
def findTrack (tracks : List TrackedBall) (tid : Nat) : Option TrackedBall :=
  tracks.find? (fun t => t.track_id == tid)

/-- Replace the track stored under `tid`. -/
def replaceTrack (tracks : List TrackedBall) (tid : Nat) (new : TrackedBall) :
    List TrackedBall :=
  tracks.map (fun t => if t.track_id == tid then new else t)

/-- The two exception kinds that can escape or be caught in the tracker:
`ValueError` from `BallType(class_id)` and `LinAlgError` from
`np.linalg.inv`. -/
inductive TrackError
  | valueError
  | linAlgError
deriving DecidableEq, Repr

/-- Decidable equality of `Except` results (for evaluating the tracker
on concrete inputs). -/
instance {e a : Type} [DecidableEq e] [DecidableEq a] :
    DecidableEq (Except e a) := fun x y =>
  match x, y with
  | .ok v, .ok w =>
    if h : v = w then isTrue (by rw [h])
    else isFalse (by intro hc; injection hc; exact h (by assumption))
  | .error v, .error w =>
    if h : v = w then isTrue (by rw [h])
    else isFalse (by intro hc; injection hc; exact h (by assumption))
  | .ok _, .error _ => isFalse (by intro hc; injection hc)
  | .error _, .ok _ => isFalse (by intro hc; injection hc)

/-- An assignment solver: takes the cost matrix (row-major; `none`
entries are the `float('inf')` cells) and returns the chosen
(row, column) pairs, or `none` when the solver raises an internal error.
`scipy.optimize.linear_sum_assignment` is external library code, so the
tracker is parameterised over this. -/
def AssignSolver : Type :=
  List (List (Option ℚ)) → Option (List (Nat × Nat))

/-- Mutable state of a `BallTracker` instance (ball_tracker.py lines
104-116), minus the `tracking_stats` bookkeeping dict. -/
structure TrackerState where
  config : TrackingConfig
  tracks : List TrackedBall
  next_track_id : Nat
  kalman_filters : List (Nat × KalmanFilter)

/-- A fresh `BallTracker(config)` (ball_tracker.py lines 104-108). -/
def TrackerState.init (config : TrackingConfig) : TrackerState :=
  { config := config, tracks := [], next_track_id := 1, kalman_filters := [] }

/-- `BallTracker._predict_all_tracks` (ball_tracker.py lines 146-151):
every Kalman filter whose track is active is predicted; track positions
are deliberately not touched ("Don't update the track position yet"). -/
def predict_all_tracks (st : TrackerState) (now : ℚ) : TrackerState :=
  { st with kalman_filters := st.kalman_filters.map (fun p =>
      match findTrack st.tracks p.1 with
      | some t => if t.is_active then (p.1, (p.2.predict now).1) else p
      | none => p) }

/-- `detection.get_ball_type()` evaluated for every detection in the cost
matrix loops; the first invalid class id raises (`none`). -/
def detectionTypes (dets : List Detection) : Option (List BallType) :=
  dets.mapM Detection.get_ball_type

/-- The cost matrix of ball_tracker.py lines 163-177: a row per active
track, a column per detection; a finite entry (the squared distance —
see the note on `distanceSqTo`) only when the ball types match and the
distance is within `max_tracking_distance`, `none` (infinity) otherwise. -/
def buildCostMatrix (cfg : TrackingConfig) (active : List TrackedBall)
    (dets : List Detection) (tys : List BallType) : List (List (Option ℚ)) :=
  active.map (fun t => (dets.zip tys).map (fun dz =>
    if t.ball_type = dz.2 then
      let dSq := t.current_position.distanceSqTo dz.1.get_centroid
      if dSq ≤ cfg.max_tracking_distance ^ 2 then some dSq else none
    else none))

/-- `cost_matrix[row, col]` with numpy bounds checking: `none` when an
index is out of range (an `IndexError`, which inside the `try` block is
caught like a solver failure). -/
def lookupCost (cost : List (List (Option ℚ))) (row col : Nat) :
    Option (Option ℚ) :=
  (cost.get? row).bind (fun r => r.get? col)

/-- The association-building loop inside the `try` block
(ball_tracker.py lines 183-189): keep solver pairs whose cost entry is
finite, mapping the row back to its track id; exceptions inside the loop
(out-of-range indices) surface as `none` and are caught by the caller. -/
def buildAssociations (activeIds : List Nat) (cost : List (List (Option ℚ)))
    (raw : List (Nat × Nat)) : Option (List (Nat × Nat)) :=
  raw.foldlM (fun acc rc =>
    match lookupCost cost rc.1 rc.2 with
    | none => none
    | some none => some acc
    | some (some _) =>
      match activeIds.get? rc.1 with
      | none => none
      | some tid => some (dictUpsert acc tid rc.2)) []

/-- `BallTracker._associate_detections_to_tracks` (ball_tracker.py lines
153-196).  Early empty result when there are no tracks, no detections or
no active tracks; `ValueError` from `get_ball_type` propagates (it is
raised in the cost loops, outside the `try`); a solver failure is caught
and yields no associations. -/
def associate_detections_to_tracks (solve : AssignSolver) (cfg : TrackingConfig)
    (tracks : List TrackedBall) (dets : List Detection) :
    Except TrackError (List (Nat × Nat)) :=
  if tracks.isEmpty || dets.isEmpty then .ok []
  else
    let active := tracks.filter (·.is_active)
    if active.isEmpty then .ok []
    else
      match detectionTypes dets with
      | none => .error .valueError
      | some tys =>
        let cost := buildCostMatrix cfg active dets tys
        match solve cost with
        | none => .ok []
        | some raw =>
          match buildAssociations (active.map (·.track_id)) cost raw with
          | none => .ok []
          | some assoc => .ok assoc

/-- `BallTracker._update_associated_tracks` (ball_tracker.py lines
198-223): for each associated (track id, detection index) pair, run the
Kalman update (its `LinAlgError` propagates), pick the smoothed or raw
position, record it via `update_position`, and overwrite the velocity
with the filter estimate. -/
def update_associated_step (dets : List Detection) (frame : Int) (now : ℚ)
    (st : TrackerState) (p : Nat × Nat) : Except TrackError TrackerState :=
  match findTrack st.tracks p.1, dets.get? p.2 with
    | some track, some detection =>
      match dictFind st.kalman_filters p.1 with
      | some kf =>
        match kf.update now detection.get_centroid with
        | none => .error .linAlgError
        | some (kf2, updated_position) =>
          let final_position :=
            if st.config.trajectory_smoothing then updated_position
            else detection.get_centroid
          let track2 := track.update_position final_position detection.confidence frame
          let track3 := { track2 with velocity := some kf2.get_velocity }
          .ok { st with tracks := replaceTrack st.tracks p.1 track3,
                        kalman_filters := dictUpsert st.kalman_filters p.1 kf2 }
      | none =>
        let track2 := track.update_position detection.get_centroid
          detection.confidence frame
        .ok { st with tracks := replaceTrack st.tracks p.1 track2 }
    | _, _ => .ok st

/-- The fold of `_update_associated_tracks` over the association pairs
(the dict iterates in insertion order). -/
def update_associated_tracks (st : TrackerState) (assoc : List (Nat × Nat))
    (dets : List Detection) (frame : Int) (now : ℚ) :
    Except TrackError TrackerState :=
  assoc.foldlM (update_associated_step dets frame now) st

/-- `BallTracker._create_new_tracks` (ball_tracker.py lines 225-259):
each detection index not in the association values spawns a fresh track
(fresh monotone id, singleton histories, active) and a fresh Kalman
filter seeded at the detection centroid; `get_ball_type` may raise. -/
def create_new_step (associated : List Nat) (frame : Int) (now : ℚ)
    (st : TrackerState) (p : Nat × Detection) : Except TrackError TrackerState :=
  if associated.contains p.1 then .ok st
  else
      match p.2.get_ball_type with
      | none => .error .valueError
      | some bt =>
        let tid := st.next_track_id
        let center := p.2.get_centroid
        let new_track : TrackedBall :=
          { track_id := tid, ball_type := bt, current_position := center,
            trajectory := [center], confidence_history := [p.2.confidence],
            last_seen_frame := frame, is_active := true, velocity := none }
        .ok { st with
              tracks := st.tracks ++ [new_track],
              kalman_filters := st.kalman_filters ++
                [(tid, KalmanFilter.init center st.config.kalman_process_noise
                        st.config.kalman_measurement_noise now)],
              next_track_id := tid + 1 }

/-- The fold of `_create_new_tracks` over the enumerated detections. -/
def create_new_tracks (st : TrackerState) (assoc : List (Nat × Nat))
    (dets : List Detection) (frame : Int) (now : ℚ) :
    Except TrackError TrackerState :=
  dets.enum.foldlM (create_new_step (assoc.map (·.2)) frame now) st

/-- `BallTracker._cleanup_lost_tracks` (ball_tracker.py lines 261-286):
first pass flips `is_active` off for every track lost longer than
`max_disappeared_frames` and drops those tracks' Kalman filters; second
pass deletes inactive tracks whose `last_seen_frame` is older than
`frame - 2 * max_disappeared_frames`. -/
def cleanup_lost_tracks (st : TrackerState) (frame : Int) : TrackerState :=
  let N := st.config.max_disappeared_frames
  let lostIds := (st.tracks.filter (fun t => t.is_lost frame N)).map (·.track_id)
  let tracks1 := st.tracks.map (fun t =>
    if t.is_lost frame N then { t with is_active := false } else t)
  let kfs1 := st.kalman_filters.filter (fun p => !(lostIds.contains p.1))
  let inactive_threshold := frame - N * 2
  let tracks2 := tracks1.filter (fun t =>
    !(!t.is_active && decide (t.last_seen_frame < inactive_threshold)))
  { st with tracks := tracks2, kalman_filters := kfs1 }

/-- `BallTracker.get_active_tracks` (ball_tracker.py lines 288-290). -/
def get_active_tracks (st : TrackerState) : List TrackedBall :=
  st.tracks.filter (·.is_active)

/-- `BallTracker.get_track_by_id` (ball_tracker.py lines 308-310). -/
def get_track_by_id (st : TrackerState) (tid : Nat) : Option TrackedBall :=
  findTrack st.tracks tid

/-- `BallTracker.update` (ball_tracker.py lines 118-144): the per-frame
pipeline — predict, associate, update matched, spawn unmatched, clean up
— returning the new state and the active track list.  With no detections
the association phase is skipped. -/
def BallTracker.update (st : TrackerState) (dets : List Detection)
    (frame : Int) (now : ℚ) (solve : AssignSolver) :
    Except TrackError (TrackerState × List TrackedBall) :=
  if dets.isEmpty then
    let st1 := predict_all_tracks st now
    let st2 := cleanup_lost_tracks st1 frame
    .ok (st2, get_active_tracks st2)
  else
    let st1 := predict_all_tracks st now
    match associate_detections_to_tracks solve st1.config st1.tracks dets with
    | .error e => .error e
    | .ok assoc =>
      match update_associated_tracks st1 assoc dets frame now with
      | .error e => .error e
      | .ok st2 =>
        match create_new_tracks st2 assoc dets frame now with
        | .error e => .error e
        | .ok st3 =>
          let st4 := cleanup_lost_tracks st3 frame
          .ok (st4, get_active_tracks st4)

/-- The association pairs a call of `BallTracker.update` acts on: empty
when there are no detections or when the association step returned or
caught an error. -/
def update_associations (st : TrackerState) (dets : List Detection)
    (now : ℚ) (solve : AssignSolver) : List (Nat × Nat) :=
  if dets.isEmpty then []
  else
    match associate_detections_to_tracks solve st.config
        (predict_all_tracks st now).tracks dets with
    | .ok a => a
    | .error _ => []

/-! ## Trajectory analyzer (trajectory_analyzer.py, plus
`TableGeometry.is_point_near_pocket` from coordinate_transformer.py) -/

/-- Ball state enumeration (trajectory_analyzer.py lines 16-22). -/
inductive BallState
  | STATIONARY
  | MOVING
  | POTTED
  | LOST
  | COLLISION
deriving DecidableEq, Repr

/-- The slice of `CalibrationData` that
`TableGeometry.is_point_near_pocket` reads: the pocket regions.  The
analyzer consumes calibration only through this query
(coordinate_transformer.py lines 264-279). -/
structure TableGeometry where
  pocket_regions : List BoundingBox
deriving DecidableEq, Repr

/-- The scan loop of `is_point_near_pocket`: first pocket (by index)
whose centre is within `threshold`, else `(false, -1)`. -/
def nearPocketAux (point : Point) (threshold : ℚ) :
    Nat → List BoundingBox → Bool × Int
  | _, [] => (false, -1)
  | i, p :: rest =>
    if point.distanceSqTo p.get_center ≤ threshold ^ 2 then (true, Int.ofNat i)
    else nearPocketAux point threshold (i + 1) rest

/-- `TableGeometry.is_point_near_pocket` (coordinate_transformer.py lines
264-279); the empty-regions early return of the source coincides with
the empty scan. -/
def TableGeometry.is_point_near_pocket (g : TableGeometry) (point : Point)
    (threshold : ℚ) : Bool × Int :=
  if g.pocket_regions.isEmpty then (false, -1)
  else nearPocketAux point threshold 0 g.pocket_regions

/-- `self.motion_threshold = 5.0` (trajectory_analyzer.py line 32). -/
def motion_threshold : ℚ := 5

/-- `self.pocket_threshold = 30.0` (trajectory_analyzer.py line 34). -/
def pocket_threshold : ℚ := 30

/-- `collision_distance = 25.0` (trajectory_analyzer.py line 269). -/
def collision_distance : ℚ := 25

/-- The direction-change test of `_detect_collision` (trajectory_analyzer.py
lines 146-157) on two consecutive direction vectors: normalise each by its
norm plus `1e-6`, clip the dot product into `[-1, 1]`, and compare
`arccos` of it against `pi / 4`.  This is floating-point trigonometry
with no exact rational counterpart, so the analyzer is parameterised by
an arbitrary such test; no claim below depends on its value. -/
def AngleTest : Type :=
  Point → Point → Bool

/-- The event dicts appended to `detected_events`
(trajectory_analyzer.py lines 225-233 and 248-256). -/
inductive AnalyzerEvent
  | ball_potted (track_id : Nat) (ball_type : BallType) (pocket_id : Int)
      (position : Point) (frame : Int) (confidence : ℚ)
  | ball_collision (ball1_id ball2_id : Nat) (ball1_type ball2_type : BallType)
      (collision_point : Point) (frame : Int)
deriving DecidableEq, Repr

/-- Mutable state of a `TrajectoryAnalyzer` (trajectory_analyzer.py lines
27-38): the optional table geometry, the event log, and the
last-known-state-per-track cache. -/
structure TrajectoryAnalyzer where
  table_geometry : Option TableGeometry
  detected_events : List AnalyzerEvent
  ball_states : List (Nat × BallState)

/-- `TrajectoryAnalyzer._is_ball_moving` (trajectory_analyzer.py lines
77-83): speed (velocity magnitude) above `motion_threshold`; compared in
squares. -/
def is_ball_moving (b : TrackedBall) : Bool :=
  match b.velocity with
  | none => false
  | some v => decide (v.x ^ 2 + v.y ^ 2 > motion_threshold ^ 2)

/-- `TrajectoryAnalyzer._is_ball_potted` (trajectory_analyzer.py lines
85-109): no geometry means never potted; otherwise the ball is potted
when its position is near a pocket, its last up-to-5 trajectory points
number at least 3 and are all near pockets, and it is not moving.
The source's `trajectory[-5:] if len >= 5 else trajectory` is
`takeLast 5` in both branches. -/
def is_ball_potted (geo : Option TableGeometry) (b : TrackedBall) : Bool :=
  match geo with
  | none => false
  | some g =>
    if (g.is_point_near_pocket b.current_position pocket_threshold).1 then
      let recent := takeLast 5 b.trajectory
      if recent.length ≥ 3 then
        recent.all (fun pos => (g.is_point_near_pocket pos pocket_threshold).1)
          && !(is_ball_moving b)
      else false
    else false

/-- `TrajectoryAnalyzer._is_near_pocket` (trajectory_analyzer.py lines
111-116). -/
def is_near_pocket (geo : Option TableGeometry) (position : Point) : Bool × Int :=
  match geo with
  | none => (false, -1)
  | some g => g.is_point_near_pocket position pocket_threshold

/-- The consecutive displacement vectors of a position list
(trajectory_analyzer.py lines 130-136 before the zero filter). -/
def displacements : List Point → List Point
  | a :: b :: rest => ⟨b.x - a.x, b.y - a.y⟩ :: displacements (b :: rest)
  | _ => []

/-- Whether some adjacent pair in the list passes the test
(trajectory_analyzer.py lines 142-157). -/
def anyAdjacent (f : AngleTest) : List Point → Bool
  | a :: b :: rest => f a b || anyAdjacent f (b :: rest)
  | _ => false

/-- `TrajectoryAnalyzer._detect_collision` (trajectory_analyzer.py lines
118-159): trajectories shorter than 5 never collide; otherwise scan the
nonzero displacement vectors of the last 5 positions for a sharp
direction change. -/
def detect_collision (angleTest : AngleTest) (b : TrackedBall) : Bool :=
  if b.trajectory.length < 5 then false
  else
    let recent := takeLast 5 b.trajectory
    if recent.length < 3 then false
    else
      let directions := (displacements recent).filter
        (fun d => !(d.x == 0 && d.y == 0))
      if directions.length < 2 then false
      else anyAdjacent angleTest directions

/-- `TrajectoryAnalyzer._determine_ball_state` (trajectory_analyzer.py
lines 59-75), in the source's priority order. -/
def determine_ball_state (geo : Option TableGeometry) (angleTest : AngleTest)
    (b : TrackedBall) : BallState :=
  if !b.is_active then .LOST
  else if is_ball_potted geo b then .POTTED
  else if is_ball_moving b then
    if detect_collision angleTest b then .COLLISION else .MOVING
  else .STATIONARY

/-- The fields of the `analyze_trajectory` result dict that modelled
behaviour reads (trajectory_analyzer.py lines 42-52); the float-valued
summary fields (`total_distance`, `average_speed`, `direction_changes`)
involve square roots and arccos, are read by nothing modelled, and are
omitted. -/
structure TrajectoryAnalysis where
  track_id : Nat
  ball_type : BallType
  current_state : BallState
  trajectory_length : Nat
  near_pocket : Bool × Int
  collision_detected : Bool
deriving DecidableEq, Repr

/-- `TrajectoryAnalyzer.analyze_trajectory` (trajectory_analyzer.py lines
40-57): build the analysis record and overwrite the per-track state
cache. -/
def analyze_trajectory (A : TrajectoryAnalyzer) (angleTest : AngleTest)
    (b : TrackedBall) : TrajectoryAnalyzer × TrajectoryAnalysis :=
  let analysis : TrajectoryAnalysis :=
    { track_id := b.track_id, ball_type := b.ball_type,
      current_state := determine_ball_state A.table_geometry angleTest b,
      trajectory_length := b.trajectory.length,
      near_pocket := is_near_pocket A.table_geometry b.current_position,
      collision_detected := detect_collision angleTest b }
  ({ A with ball_states :=
      dictUpsert A.ball_states b.track_id analysis.current_state }, analysis)

/-- `np.mean(ball.confidence_history[-5:]) if ball.confidence_history
else 0.0` (trajectory_analyzer.py line 232). -/
def meanRecentConfidence (b : TrackedBall) : ℚ :=
  if b.confidence_history.isEmpty then 0
  else
    let recent := takeLast 5 b.confidence_history
    recent.sum / (recent.length : ℚ)

/-- `TrajectoryAnalyzer.detect_potting_events` (trajectory_analyzer.py
lines 214-238): analyze each ball; every ball whose current state is
`POTTED` and whose position is near a pocket contributes one event,
appended both to the returned list and to the analyzer's event log. -/
def potting_step (angleTest : AngleTest)
    (acc : TrajectoryAnalyzer × List AnalyzerEvent) (ball : TrackedBall) :
    TrajectoryAnalyzer × List AnalyzerEvent :=
  let (A1, analysis) := analyze_trajectory acc.1 angleTest ball
  if analysis.current_state = .POTTED then
    if analysis.near_pocket.1 then
      let event : AnalyzerEvent := .ball_potted ball.track_id ball.ball_type
        analysis.near_pocket.2 ball.current_position ball.last_seen_frame
        (meanRecentConfidence ball)
      ({ A1 with detected_events := A1.detected_events ++ [event] },
       acc.2 ++ [event])
    else (A1, acc.2)
  else (A1, acc.2)

/-- The fold of `detect_potting_events` over the tracked balls. -/
def detect_potting_events (A : TrajectoryAnalyzer) (angleTest : AngleTest)
    (balls : List TrackedBall) : TrajectoryAnalyzer × List AnalyzerEvent :=
  balls.foldl (potting_step angleTest) (A, [])

/-- `TrajectoryAnalyzer._estimate_collision_point` (trajectory_analyzer.py
lines 280-286). -/
def estimate_collision_point (b1 b2 : TrackedBall) : Point :=
  ⟨(b1.current_position.x + b2.current_position.x) / 2,
   (b1.current_position.y + b2.current_position.y) / 2⟩

/-- `TrajectoryAnalyzer._detect_ball_collision` (trajectory_analyzer.py
lines 263-278): farther apart than `collision_distance` is never a
collision; otherwise both balls must individually show the
direction-change signal. -/
def detect_ball_collision (angleTest : AngleTest) (b1 b2 : TrackedBall) : Bool :=
  if b1.current_position.distanceSqTo b2.current_position
      > collision_distance ^ 2 then false
  else detect_collision angleTest b1 && detect_collision angleTest b2

/-- The nested pair loop of `detect_collision_events`
(trajectory_analyzer.py lines 245-259): for each `i < j`, a colliding
pair contributes one event. -/
def collision_events_aux (angleTest : AngleTest) :
    List TrackedBall → List AnalyzerEvent
  | [] => []
  | b1 :: rest =>
    (rest.filter (fun b2 => detect_ball_collision angleTest b1 b2)).map
      (fun b2 => .ball_collision b1.track_id b2.track_id b1.ball_type
        b2.ball_type (estimate_collision_point b1 b2)
        (max b1.last_seen_frame b2.last_seen_frame))
    ++ collision_events_aux angleTest rest

/-- `TrajectoryAnalyzer.detect_collision_events` (trajectory_analyzer.py
lines 240-261). -/
def detect_collision_events (A : TrajectoryAnalyzer) (angleTest : AngleTest)
    (balls : List TrackedBall) : TrajectoryAnalyzer × List AnalyzerEvent :=
  let evs := collision_events_aux angleTest balls
  ({ A with detected_events := A.detected_events ++ evs }, evs)

/-! ## A concrete solver model for evaluation

`scipy.optimize.linear_sum_assignment` is external library code (not part
of this repository): it computes a minimum-total-cost assignment of size
`min(rows, cols)` and raises when no feasible (finite-cost) complete
assignment exists.  The theorems below quantify over every
`AssignSolver`; this brute-force model is used only to evaluate the
tracker on concrete inputs. -/

/-- All ways to pick `k` distinct values from `cols`, in order. -/
def injectionsList (k : Nat) (cols : List Nat) : List (List Nat) :=
  match k with
  | 0 => [[]]
  | k + 1 => cols.flatMap (fun c =>
      (injectionsList k (cols.erase c)).map (fun rest => c :: rest))

/-- Total cost of a choice of (row, column) pairs; `none` when any chosen
entry is infinite or out of range. -/
def choiceCost (cost : List (List (Option ℚ))) (choice : List (Nat × Nat)) :
    Option ℚ :=
  choice.foldlM (fun acc rc =>
    (lookupCost cost rc.1 rc.2).bind (fun e => e.map (acc + ·))) 0

/-- Brute-force model of `linear_sum_assignment`: enumerate the complete
assignments of size `min(rows, cols)`, keep the finite-cost ones, return
the first of minimum total cost; `none` (the raise) when none is
feasible. -/
def lsaSolve : AssignSolver := fun cost =>
  let nR := cost.length
  let nC := (cost.head?.map List.length).getD 0
  let candidates : List (List (Nat × Nat)) :=
    if nR ≤ nC then
      (injectionsList nR (List.range nC)).map (fun cs => (List.range nR).zip cs)
    else
      (injectionsList nC (List.range nR)).map (fun rs => rs.zip (List.range nC))
  let scored := candidates.filterMap (fun ch =>
    (choiceCost cost ch).map (fun c => (c, ch)))
  match scored with
  | [] => none
  | s0 :: rest =>
    some (rest.foldl (fun best cur => if cur.1 < best.1 then cur else best) s0).2

/-! ## Helper restatement for the potting-event fold -/

/-- One potting event per ball currently classified `POTTED`: the value
`detect_potting_events` returns, factored out of its fold so that the
induction can be shared. -/
def pottedEventList (geo : Option TableGeometry) (angleTest : AngleTest)
    (balls : List TrackedBall) : List AnalyzerEvent :=
  balls.filterMap (fun b =>
    if determine_ball_state geo angleTest b = .POTTED then
      some (.ball_potted b.track_id b.ball_type
        (is_near_pocket geo b.current_position).2 b.current_position
        b.last_seen_frame (meanRecentConfidence b))
    else none)

/-! ## Concrete fixtures used by witnesses and counterexamples -/

/-- An angle test that never fires (a legitimate instance of the abstract
direction-change test). -/
def falseAngleTest : AngleTest := fun _ _ => false

/-- A table with a single pocket region centred at the origin. -/
def pocketGeo : TableGeometry := ⟨[⟨-10, -10, 10, 10⟩]⟩

/-- A fresh analyzer over `pocketGeo`. -/
def pottingAnalyzer : TrajectoryAnalyzer := ⟨some pocketGeo, [], []⟩

/-- A ball resting inside the pocket region for three frames: classified
`POTTED` (near the pocket, three recent positions all near it, not
moving). -/
def pottedBall : TrackedBall :=
  ⟨1, .RED, ⟨0, 0⟩, [⟨0, 0⟩, ⟨0, 0⟩, ⟨0, 0⟩], [1, 1, 1], 3, true, none⟩

/-- A track at the origin with a fresh Kalman filter whose clock reads 0. -/
def clockTrack : TrackedBall := ⟨1, .CUE_BALL, ⟨0, 0⟩, [⟨0, 0⟩], [1], 1, true, none⟩

/-- Prior tracker state for the wall-clock experiment: one active cue
ball track with its just-initialised filter. -/
def clockState : TrackerState :=
  { config := defaultTrackingConfig, tracks := [clockTrack],
    next_track_id := 2,
    kalman_filters := [(1, KalmanFilter.init ⟨0, 0⟩ (1/10) (1/10) 0)] }

/-- A cue-ball detection centred at (1, 0), one pixel from the track. -/
def clockDet : Detection := ⟨⟨-9, -10, 11, 10⟩, 0, 1⟩

/-- A red track that has just turned inactive and is inside the removal
grace period (`last_seen_frame = 0`, next frame 1). -/
def graceTrack : TrackedBall := ⟨1, .RED, ⟨0, 0⟩, [⟨0, 0⟩], [1], 0, false, none⟩

/-- State holding only the inactive-but-not-yet-removed `graceTrack` (its
filter was already dropped when the track was marked lost). -/
def graceState : TrackerState :=
  { config := defaultTrackingConfig, tracks := [graceTrack],
    next_track_id := 2, kalman_filters := [] }

/-- A red detection at the inactive track's exact position. -/
def graceDet : Detection := ⟨⟨-10, -10, 10, 10⟩, 2, 1⟩

/-- A track unassociated for 21 frames (frame 21, `last_seen_frame = 0`,
`max_disappeared_frames = 10`). -/
def staleTrack : TrackedBall := ⟨1, .RED, ⟨0, 0⟩, [⟨0, 0⟩], [1], 0, false, none⟩

/-- State holding only `staleTrack`. -/
def staleState : TrackerState :=
  { config := defaultTrackingConfig, tracks := [staleTrack],
    next_track_id := 2, kalman_filters := [] }

/-- A track whose trajectory holds exactly 100 points. -/
def cappedBall : TrackedBall :=
  ⟨1, .RED, ⟨0, 0⟩, List.replicate 100 ⟨0, 0⟩, List.replicate 100 1, 1, true, none⟩

/-- A detection with an out-of-range class id (99): `BallType(99)` raises
`ValueError`. -/
def badDet : Detection := ⟨⟨0, 0, 10, 10⟩, 99, 1⟩

/-- A ball whose trajectory holds a single point. -/
def shortBall : TrackedBall := ⟨7, .BLUE, ⟨0, 0⟩, [⟨0, 0⟩], [1], 1, true, some ⟨9, 9⟩⟩

/-- An active red track at the origin. -/
def isoTrack : TrackedBall := ⟨1, .RED, ⟨0, 0⟩, [⟨0, 0⟩], [1], 1, true, none⟩

/-- State with the active `isoTrack` and a fresh filter (zero process
noise, unit measurement noise, clock at 0). -/
def psdState : TrackerState :=
  { config := defaultTrackingConfig, tracks := [isoTrack],
    next_track_id := 2,
    kalman_filters := [(1, KalmanFilter.init ⟨0, 0⟩ 0 1 0)] }

/-- State holding only the active `isoTrack` (no filter attached). -/
def isoState : TrackerState :=
  { config := defaultTrackingConfig, tracks := [isoTrack],
    next_track_id := 2, kalman_filters := [] }

/-- The error carried by a failed tracker call, if any (projection used
to state evaluations, since tracker states contain filter functions and
have no decidable equality). -/
def errorOf (e : Except TrackError (TrackerState × List TrackedBall)) :
    Option TrackError :=
  match e with
  | .error t => some t
  | .ok _ => none

/-- The invariant of every reachable Kalman filter: the noise magnitudes
come from the configuration (process noise nonnegative, measurement
noise positive), and the error covariance is symmetric positive
semidefinite — true at `init` (`1000 * eye(4)`) and preserved by the
filter recurrence. -/
def goodKF (kf : KalmanFilter) : Prop :=
  0 ≤ kf.process_noise ∧ 0 < kf.measurement_noise
  ∧ kf.P.transpose = kf.P
  ∧ ∀ x : Fin 4 → ℚ, 0 ≤ Matrix.dotProduct x (kf.P.mulVec x)

/-! ## Theorems -/

/-! ### C6: bounded trajectory history -/

theorem takeLast_length (n : Nat) (l : List α) :
    (takeLast n l).length = l.length - (l.length - n) := by
  simp [takeLast]

theorem update_position_length_le (b : TrackedBall) (p : Point) (c : ℚ)
    (f : Int) (hb : b.trajectory.length ≤ 100) :
    (b.update_position p c f).trajectory.length ≤ 100 := by
  unfold TrackedBall.update_position
  dsimp only
  split
  · simp only [takeLast_length, List.length_append, List.length_cons,
      List.length_nil]
    omega
  · simp only [List.length_append, List.length_cons, List.length_nil] at *
    omega

/-- C6: for every track whose trajectory is within the cap of 100, it
stays within the cap after any number of `update_position` calls, and
whenever appending a position pushes the history past the cap, the
retained trajectory is exactly the most recent 50 entries of the
appended history. -/
theorem trajectory_length_bounded (b : TrackedBall)
    (hb : b.trajectory.length ≤ 100) (updates : List (Point × ℚ × Int)) :
    (updates.foldl (fun t u => t.update_position u.1 u.2.1 u.2.2) b).trajectory.length ≤ 100
    ∧ ∀ p c f, 100 < (b.trajectory ++ [p]).length →
        (b.update_position p c f).trajectory = takeLast 50 (b.trajectory ++ [p]) := by
  constructor
  · induction updates generalizing b with
    | nil => exact hb
    | cons u us ih =>
      exact ih (b.update_position u.1 u.2.1 u.2.2)
        (update_position_length_le b u.1 u.2.1 u.2.2 hb)
  · intro p c f h
    unfold TrackedBall.update_position
    dsimp only
    rw [if_pos h]

theorem trajectory_length_bounded_witness :
    cappedBall.trajectory.length ≤ 100
    ∧ (([(⟨1, 1⟩, 1, 2)] : List (Point × ℚ × Int)).foldl
        (fun t u => t.update_position u.1 u.2.1 u.2.2) cappedBall).trajectory.length ≤ 100
    ∧ (cappedBall.update_position ⟨1, 1⟩ 1 2).trajectory
        = takeLast 50 (cappedBall.trajectory ++ [⟨1, 1⟩]) :=
  ⟨by decide,
   (trajectory_length_bounded cappedBall (by decide) [(⟨1, 1⟩, 1, 2)]).1,
   (trajectory_length_bounded cappedBall (by decide) []).2 ⟨1, 1⟩ 1 2 (by decide)⟩

/-! ### C10: short trajectories never collide -/

theorem detect_collision_short (t : AngleTest) (b : TrackedBall)
    (h : b.trajectory.length < 5) : detect_collision t b = false := by
  unfold detect_collision
  rw [if_pos h]

theorem detect_ball_collision_parts (t : AngleTest) (b1 b2 : TrackedBall)
    (h : detect_ball_collision t b1 b2 = true) :
    detect_collision t b1 = true ∧ detect_collision t b2 = true := by
  unfold detect_ball_collision at h
  split at h
  · exact absurd h (by simp)
  · simp only [Bool.and_eq_true] at h
    exact h

theorem collision_events_aux_mem (t : AngleTest) :
    ∀ (balls : List TrackedBall) (e : AnalyzerEvent),
    e ∈ collision_events_aux t balls →
    ∃ b1 b2, b1 ∈ balls ∧ b2 ∈ balls ∧ detect_ball_collision t b1 b2 = true ∧
      e = .ball_collision b1.track_id b2.track_id b1.ball_type b2.ball_type
        (estimate_collision_point b1 b2) (max b1.last_seen_frame b2.last_seen_frame)
  | b :: rest, e, h => by
    unfold collision_events_aux at h
    rcases List.mem_append.mp h with h1 | h2
    · rcases List.mem_map.mp h1 with ⟨b2, hb2, rfl⟩
      rcases List.mem_filter.mp hb2 with ⟨hb2r, hcol⟩
      exact ⟨b, b2, List.mem_cons_self .., List.mem_cons_of_mem _ hb2r, hcol, rfl⟩
    · rcases collision_events_aux_mem t rest e h2 with ⟨b1, b2, h1', h2', hc, he⟩
      exact ⟨b1, b2, List.mem_cons_of_mem _ h1', List.mem_cons_of_mem _ h2', hc, he⟩

/-- C10: a track whose trajectory has fewer than 5 points is never
classified `COLLISION`, never passes the pairwise ball-collision test in
either position, and (independently of any particular short track) every
collision event emitted by `detect_collision_events` names two balls
whose trajectories both have at least 5 points. -/
theorem short_trajectory_no_collision (geo : Option TableGeometry)
    (t : AngleTest) (b : TrackedBall) (h : b.trajectory.length < 5) :
    determine_ball_state geo t b ≠ .COLLISION
    ∧ (∀ b2, detect_ball_collision t b b2 = false
        ∧ detect_ball_collision t b2 b = false)
    ∧ ∀ (A : TrajectoryAnalyzer) (balls : List TrackedBall)
        (i1 i2 : Nat) (t1 t2 : BallType) (cp : Point) (fr : Int),
        AnalyzerEvent.ball_collision i1 i2 t1 t2 cp fr
            ∈ (detect_collision_events A t balls).2 →
        ∃ b1, b1 ∈ balls ∧ b1.track_id = i1 ∧ 5 ≤ b1.trajectory.length ∧
        ∃ b2, b2 ∈ balls ∧ b2.track_id = i2 ∧ 5 ≤ b2.trajectory.length := by
  refine ⟨?_, ?_, ?_⟩
  · unfold determine_ball_state
    split
    · simp
    · split
      · simp
      · split
        · rw [detect_collision_short t b h]
          simp
        · simp
  · intro b2
    constructor
    · unfold detect_ball_collision
      split
      · rfl
      · rw [detect_collision_short t b h, Bool.false_and]
    · unfold detect_ball_collision
      split
      · rfl
      · rw [detect_collision_short t b h, Bool.and_false]
  · intro A balls i1 i2 t1 t2 cp fr hmem
    have hmem' : AnalyzerEvent.ball_collision i1 i2 t1 t2 cp fr
        ∈ collision_events_aux t balls := hmem
    rcases collision_events_aux_mem t balls _ hmem' with ⟨b1, b2, h1, h2, hc, he⟩
    rcases detect_ball_collision_parts t b1 b2 hc with ⟨hc1, hc2⟩
    cases he
    refine ⟨b1, h1, rfl, ?_, b2, h2, rfl, ?_⟩
    · by_contra hlt
      rw [detect_collision_short t b1 (by omega)] at hc1
      exact absurd hc1 (by simp)
    · by_contra hlt
      rw [detect_collision_short t b2 (by omega)] at hc2
      exact absurd hc2 (by simp)

theorem short_trajectory_no_collision_witness :
    shortBall.trajectory.length < 5
    ∧ determine_ball_state none falseAngleTest shortBall ≠ .COLLISION
    ∧ detect_ball_collision falseAngleTest shortBall pottedBall = false :=
  ⟨by decide,
   (short_trajectory_no_collision none falseAngleTest shortBall (by decide)).1,
   ((short_trajectory_no_collision none falseAngleTest shortBall (by decide)).2.1
     pottedBall).1⟩

/-! ### C1: potting events are emitted per frame, not per entry -/

theorem is_ball_potted_near (geo : Option TableGeometry) (b : TrackedBall)
    (h : is_ball_potted geo b = true) :
    (is_near_pocket geo b.current_position).1 = true := by
  cases geo with
  | none => simp [is_ball_potted] at h
  | some g =>
    simp only [is_ball_potted] at h
    simp only [is_near_pocket]
    by_cases hn : (g.is_point_near_pocket b.current_position pocket_threshold).1 = true
    · exact hn
    · rw [if_neg hn] at h
      exact absurd h (by simp)

theorem determine_state_potted_near (geo : Option TableGeometry)
    (t : AngleTest) (b : TrackedBall)
    (h : determine_ball_state geo t b = .POTTED) :
    (is_near_pocket geo b.current_position).1 = true := by
  unfold determine_ball_state at h
  split at h
  · exact absurd h (by simp)
  · split at h
    · exact is_ball_potted_near geo b (by assumption)
    · split at h
      · split at h <;> exact absurd h (by simp)
      · exact absurd h (by simp)

theorem potting_step_potted (t : AngleTest) (A : TrajectoryAnalyzer)
    (evs : List AnalyzerEvent) (b : TrackedBall)
    (hs : determine_ball_state A.table_geometry t b = .POTTED) :
    potting_step t (A, evs) b =
      ({ A with ball_states := dictUpsert A.ball_states b.track_id .POTTED,
                detected_events := A.detected_events ++
                  [.ball_potted b.track_id b.ball_type
                    (is_near_pocket A.table_geometry b.current_position).2
                    b.current_position b.last_seen_frame (meanRecentConfidence b)] },
       evs ++ [.ball_potted b.track_id b.ball_type
                (is_near_pocket A.table_geometry b.current_position).2
                b.current_position b.last_seen_frame (meanRecentConfidence b)]) := by
  have hnear := determine_state_potted_near A.table_geometry t b hs
  simp [potting_step, analyze_trajectory, hs, hnear]

theorem potting_step_not_potted (t : AngleTest) (A : TrajectoryAnalyzer)
    (evs : List AnalyzerEvent) (b : TrackedBall)
    (hs : ¬ determine_ball_state A.table_geometry t b = .POTTED) :
    potting_step t (A, evs) b =
      ({ A with ball_states := dictUpsert A.ball_states b.track_id
                  (determine_ball_state A.table_geometry t b) }, evs) := by
  simp [potting_step, analyze_trajectory, hs]

theorem potting_fold_spec (t : AngleTest) (balls : List TrackedBall) :
    ∀ (A : TrajectoryAnalyzer) (evs : List AnalyzerEvent),
    (balls.foldl (potting_step t) (A, evs)).2
        = evs ++ pottedEventList A.table_geometry t balls
    ∧ (balls.foldl (potting_step t) (A, evs)).1.detected_events
        = A.detected_events ++ pottedEventList A.table_geometry t balls
    ∧ (balls.foldl (potting_step t) (A, evs)).1.table_geometry
        = A.table_geometry := by
  induction balls with
  | nil => intro A evs; simp [pottedEventList]
  | cons b rest ih =>
    intro A evs
    rw [List.foldl_cons]
    by_cases hs : determine_ball_state A.table_geometry t b = .POTTED
    · rw [potting_step_potted t A evs b hs]
      rcases ih _ _ with ⟨h1, h2, h3⟩
      refine ⟨?_, ?_, ?_⟩
      · rw [h1]
        simp [pottedEventList, hs]
      · rw [h2]
        simp [pottedEventList, hs]
      · rw [h3]
    · rw [potting_step_not_potted t A evs b hs]
      rcases ih _ _ with ⟨h1, h2, h3⟩
      refine ⟨?_, ?_, ?_⟩
      · rw [h1]
        simp [pottedEventList, hs]
      · rw [h2]
        simp [pottedEventList, hs]
      · rw [h3]

theorem pottedEventList_length (geo : Option TableGeometry) (t : AngleTest)
    (balls : List TrackedBall) :
    (pottedEventList geo t balls).length
      = (balls.filter
          (fun b => decide (determine_ball_state geo t b = .POTTED))).length := by
  induction balls with
  | nil => rfl
  | cons b rest ih =>
    by_cases h : determine_ball_state geo t b = .POTTED <;>
      simp [pottedEventList, List.filterMap_cons, List.filter_cons, h] at * <;>
      simpa using ih

/-- C1 (amended): `detect_potting_events` emits one potting event per
analyzed ball whose current state is `POTTED`, on every call — one per
frame, not one per entry into the state: the emission is independent of
the `ball_states` cache and of the accumulated event log, so a track
remaining continuously `POTTED` over k analyzed frames yields k events. -/
theorem potting_events_once_per_frame (A : TrajectoryAnalyzer) (t : AngleTest)
    (balls : List TrackedBall) :
    (detect_potting_events A t balls).2.length
      = (balls.filter
          (fun b => decide (determine_ball_state A.table_geometry t b = .POTTED))).length
    ∧ (detect_potting_events A t balls).1.detected_events
      = A.detected_events ++ (detect_potting_events A t balls).2
    ∧ ∀ (states2 : List (Nat × BallState)) (evs2 : List AnalyzerEvent),
        (detect_potting_events ⟨A.table_geometry, evs2, states2⟩ t balls).2
          = (detect_potting_events A t balls).2 := by
  have hspec := potting_fold_spec t balls A []
  refine ⟨?_, ?_, ?_⟩
  · show (List.foldl (potting_step t) (A, []) balls).2.length = _
    rw [hspec.1, List.nil_append]
    exact pottedEventList_length A.table_geometry t balls
  · show (List.foldl (potting_step t) (A, []) balls).1.detected_events
        = A.detected_events ++ (List.foldl (potting_step t) (A, []) balls).2
    rw [hspec.1, hspec.2.1, List.nil_append]
  · intro states2 evs2
    show (List.foldl (potting_step t) (⟨A.table_geometry, evs2, states2⟩, []) balls).2
        = (List.foldl (potting_step t) (A, []) balls).2
    rw [hspec.1, (potting_fold_spec t balls ⟨A.table_geometry, evs2, states2⟩ []).1]

/-- C1 counterexample: a ball continuously `POTTED` across two analyzed
frames produces one event on the first call and a second event on the
second call (two logged events in total), refuting exactly-once-per-entry
emission. -/
theorem potting_reemission_counterexample :
    (detect_potting_events pottingAnalyzer falseAngleTest [pottedBall]).2.length = 1
    ∧ ((detect_potting_events
          (detect_potting_events pottingAnalyzer falseAngleTest [pottedBall]).1
          falseAngleTest [pottedBall]).1).detected_events.length = 2 :=
  ⟨by decide, by decide⟩

/-! ### C3, C4: association properties -/

theorem mem_dictUpsert {l : List (Nat × α)} {k : Nat} {v : α} {p : Nat × α}
    (h : p ∈ dictUpsert l k v) : p = (k, v) ∨ p ∈ l := by
  unfold dictUpsert at h
  split at h
  · rcases List.mem_map.mp h with ⟨q, hq, heq⟩
    by_cases hk : q.1 == k
    · rw [if_pos hk] at heq
      exact Or.inl heq.symm
    · rw [if_neg hk] at heq
      exact Or.inr (heq ▸ hq)
  · rcases List.mem_append.mp h with h1 | h2
    · exact Or.inr h1
    · simp at h2
      exact Or.inl (by cases p; simp at h2; simp [h2])

theorem detectionTypes_rel (dets : List Detection) (tys : List BallType)
    (h : detectionTypes dets = some tys) :
    ∀ i d ty, dets.get? i = some d → tys.get? i = some ty →
      d.get_ball_type = some ty := by
  induction dets generalizing tys with
  | nil =>
    rw [detectionTypes, List.mapM_nil] at h
    cases h
    intro i d ty hd
    simp at hd
  | cons a rest ih =>
    simp only [detectionTypes, List.mapM_cons] at h
    cases ha : a.get_ball_type with
    | none => rw [ha] at h; simp at h
    | some bt =>
      rw [ha] at h
      cases hrest : rest.mapM Detection.get_ball_type with
      | none => rw [hrest] at h; simp at h
      | some restTys =>
        rw [hrest] at h
        simp at h
        subst h
        intro i d ty hd hty
        cases i with
        | zero =>
          rw [List.get?_cons_zero] at hd hty
          cases hd
          cases hty
          exact ha
        | succ n =>
          rw [List.get?_cons_succ] at hd hty
          exact ih restTys hrest n d ty hd hty

theorem buildAssociations_mem (activeIds : List Nat)
    (cost : List (List (Option ℚ))) (raw : List (Nat × Nat))
    (assoc : List (Nat × Nat))
    (h : buildAssociations activeIds cost raw = some assoc) :
    ∀ p ∈ assoc, ∃ row c, activeIds.get? row = some p.1
      ∧ lookupCost cost row p.2 = some (some c) := by
  have main : ∀ (raw acc res : List (Nat × Nat)),
      raw.foldlM (fun acc rc =>
        match lookupCost cost rc.1 rc.2 with
        | none => none
        | some none => some acc
        | some (some _) =>
          match activeIds.get? rc.1 with
          | none => none
          | some tid => some (dictUpsert acc tid rc.2)) acc = some res →
      (∀ p ∈ acc, ∃ row c, activeIds.get? row = some p.1
        ∧ lookupCost cost row p.2 = some (some c)) →
      ∀ p ∈ res, ∃ row c, activeIds.get? row = some p.1
        ∧ lookupCost cost row p.2 = some (some c) := by
    intro raw
    induction raw with
    | nil =>
      intro acc res h hacc
      simp at h
      exact h ▸ hacc
    | cons rc rest ih =>
      intro acc res h hacc
      rw [List.foldlM_cons] at h
      cases hc : lookupCost cost rc.1 rc.2 with
      | none => rw [hc] at h; simp at h
      | some e =>
        cases e with
        | none =>
          rw [hc] at h
          exact ih acc res h hacc
        | some c =>
          rw [hc] at h
          cases hid : activeIds.get? rc.1 with
          | none => rw [hid] at h; simp at h
          | some tid =>
            rw [hid] at h
            refine ih _ res h ?_
            intro p hp
            rcases mem_dictUpsert hp with rfl | hmem
            · exact ⟨rc.1, c, hid, hc⟩
            · exact hacc p hmem
  exact main raw [] assoc h (by intro p hp; simp at hp)

theorem associate_ok_mem_spec (solve : AssignSolver) (cfg : TrackingConfig)
    (tracks : List TrackedBall) (dets : List Detection)
    (pairs : List (Nat × Nat))
    (hok : associate_detections_to_tracks solve cfg tracks dets = .ok pairs) :
    ∀ p ∈ pairs, ∃ trk d, trk ∈ tracks ∧ trk.is_active = true
      ∧ trk.track_id = p.1 ∧ dets.get? p.2 = some d
      ∧ d.get_ball_type = some trk.ball_type := by
  unfold associate_detections_to_tracks at hok
  by_cases h1 : (tracks.isEmpty || dets.isEmpty) = true
  · rw [if_pos h1] at hok
    cases hok
    intro p hp
    simp at hp
  · rw [if_neg h1] at hok
    dsimp only at hok
    by_cases h2 : (tracks.filter (·.is_active)).isEmpty = true
    · rw [if_pos h2] at hok
      cases hok
      intro p hp
      simp at hp
    · rw [if_neg h2] at hok
      cases hty : detectionTypes dets with
      | none => rw [hty] at hok; exact absurd hok (by simp)
      | some tys =>
        rw [hty] at hok
        dsimp only at hok
        cases hsol : solve (buildCostMatrix cfg (tracks.filter (·.is_active)) dets tys) with
        | none =>
          rw [hsol] at hok
          cases hok
          intro p hp
          simp at hp
        | some raw =>
          rw [hsol] at hok
          dsimp only at hok
          cases hb : buildAssociations ((tracks.filter (·.is_active)).map (·.track_id))
              (buildCostMatrix cfg (tracks.filter (·.is_active)) dets tys) raw with
          | none =>
            rw [hb] at hok
            cases hok
            intro p hp
            simp at hp
          | some assoc =>
            rw [hb] at hok
            cases hok
            intro p hp
            obtain ⟨row, c, hid, hcost⟩ := buildAssociations_mem _ _ _ _ hb p hp
            rw [List.get?_map] at hid
            rcases Option.map_eq_some'.mp hid with ⟨trk, htrk, htid⟩
            have htrkmem := List.get?_mem htrk
            rcases List.mem_filter.mp htrkmem with ⟨htracks, hactive⟩
            unfold lookupCost at hcost
            rw [show (buildCostMatrix cfg (tracks.filter (·.is_active)) dets tys).get? row
                = some ((dets.zip tys).map (fun dz =>
                    if trk.ball_type = dz.2 then
                      if trk.current_position.distanceSqTo dz.1.get_centroid
                          ≤ cfg.max_tracking_distance ^ 2 then
                        some (trk.current_position.distanceSqTo dz.1.get_centroid)
                      else none
                    else none)) from by
              unfold buildCostMatrix
              rw [List.get?_map, htrk]
              rfl] at hcost
            simp only [Option.some_bind] at hcost
            rw [List.get?_map] at hcost
            rcases Option.map_eq_some'.mp hcost with ⟨dz, hdz, hentry⟩
            rcases (List.get?_zip_eq_some _ _ _ _).mp hdz with ⟨hd, hty2⟩
            have htyeq : trk.ball_type = dz.2 := by
              by_contra hne
              rw [if_neg hne] at hentry
              exact absurd hentry (by simp)
            have hbt := detectionTypes_rel dets tys hty p.2 dz.1 dz.2 hd hty2
            exact ⟨trk, dz.1, htracks, hactive, htid, hd, by rw [hbt, htyeq]⟩

/-- C3 (amended): tracks that have turned inactive are not offered to the
Association Solver — every pair the association step returns names an
active track; an inactive track inside the removal grace period can
therefore never be resumed, and a matching reappearing detection starts a
new track instead.  Resumption is only possible while the track is still
active. -/
theorem associations_only_active_tracks (solve : AssignSolver)
    (cfg : TrackingConfig) (tracks : List TrackedBall) (dets : List Detection)
    (pairs : List (Nat × Nat))
    (hok : associate_detections_to_tracks solve cfg tracks dets = .ok pairs) :
    ∀ p ∈ pairs, ∃ trk, trk ∈ tracks ∧ trk.track_id = p.1
      ∧ trk.is_active = true := by
  intro p hp
  obtain ⟨trk, d, h1, h2, h3, _, _⟩ :=
    associate_ok_mem_spec solve cfg tracks dets pairs hok p hp
  exact ⟨trk, h1, h3, h2⟩

theorem associations_only_active_tracks_witness :
    associate_detections_to_tracks lsaSolve defaultTrackingConfig [isoTrack]
      [graceDet] = .ok [(1, 0)]
    ∧ ∃ trk, trk ∈ [isoTrack] ∧ trk.track_id = (1, 0).1
        ∧ trk.is_active = true :=
  ⟨by decide,
   associations_only_active_tracks lsaSolve defaultTrackingConfig [isoTrack]
     [graceDet] [(1, 0)] (by decide) (1, 0) (by decide)⟩

/-- C3 counterexample: `graceTrack` is inactive and still inside the
removal grace period, yet it forms no row of the cost matrix (only
active tracks are offered to the solver), a matching red detection at
its exact position yields no association, and `update` spawns a fresh
track id 2 instead of resuming id 1. -/
theorem inactive_track_not_offered_counterexample :
    (graceState.tracks.filter (·.is_active)).isEmpty = true
    ∧ update_associations graceState [graceDet] 0 lsaSolve = []
    ∧ (BallTracker.update graceState [graceDet] 1 0 lsaSolve).toOption.map
        (fun r => r.1.tracks.map (fun b => (b.track_id, b.is_active)))
      = some [(1, false), (2, true)] :=
  ⟨by decide, by decide, by decide⟩

/-- C4: the association step never pairs a track of one ball type with a
detection of another — every returned pair names a track and a detection
whose ball types coincide, for every solver, configuration and distance. -/
theorem association_type_isolation (solve : AssignSolver)
    (cfg : TrackingConfig) (tracks : List TrackedBall) (dets : List Detection)
    (pairs : List (Nat × Nat))
    (hok : associate_detections_to_tracks solve cfg tracks dets = .ok pairs) :
    ∀ p ∈ pairs, ∃ trk d, trk ∈ tracks ∧ trk.track_id = p.1
      ∧ dets.get? p.2 = some d ∧ d.get_ball_type = some trk.ball_type := by
  intro p hp
  obtain ⟨trk, d, h1, _, h3, h4, h5⟩ :=
    associate_ok_mem_spec solve cfg tracks dets pairs hok p hp
  exact ⟨trk, d, h1, h3, h4, h5⟩

theorem association_type_isolation_witness :
    associate_detections_to_tracks lsaSolve defaultTrackingConfig [isoTrack]
      [graceDet] = .ok [(1, 0)]
    ∧ ∃ trk d, trk ∈ [isoTrack] ∧ trk.track_id = (1, 0).1
        ∧ [graceDet].get? (1, 0).2 = some d
        ∧ d.get_ball_type = some trk.ball_type :=
  ⟨by decide,
   association_type_isolation lsaSolve defaultTrackingConfig [isoTrack]
     [graceDet] [(1, 0)] (by decide) (1, 0) (by decide)⟩

/-! ### C8: solver failure degrades to no associations -/

theorem enum_snd_mem {l : List α} {p : Nat × α} (h : p ∈ l.enum) : p.2 ∈ l := by
  have := List.mem_enum_iff_getElem?.mp h
  exact List.getElem?_mem this

theorem detectionTypes_isSome (dets : List Detection)
    (hdets : ∀ d ∈ dets, d.get_ball_type.isSome = true) :
    ∃ tys, detectionTypes dets = some tys := by
  induction dets with
  | nil => exact ⟨[], rfl⟩
  | cons a rest ih =>
    obtain ⟨tys, hty⟩ := ih (fun d hd => hdets d (List.mem_cons_of_mem _ hd))
    have ha := hdets a (List.mem_cons_self ..)
    rcases Option.isSome_iff_exists.mp ha with ⟨bt, hbt⟩
    refine ⟨bt :: tys, ?_⟩
    rw [detectionTypes, List.mapM_cons, hbt]
    rw [detectionTypes] at hty
    rw [hty]
    rfl

theorem predict_all_tracks_config (st : TrackerState) (now : ℚ) :
    (predict_all_tracks st now).config = st.config := rfl

theorem predict_all_tracks_tracks (st : TrackerState) (now : ℚ) :
    (predict_all_tracks st now).tracks = st.tracks := rfl

theorem associate_failed_solver (solve : AssignSolver)
    (hsolve : ∀ m, solve m = none) (cfg : TrackingConfig)
    (tracks : List TrackedBall) (dets : List Detection)
    (hdets : ∀ d ∈ dets, d.get_ball_type.isSome = true) :
    associate_detections_to_tracks solve cfg tracks dets = .ok [] := by
  unfold associate_detections_to_tracks
  by_cases h1 : (tracks.isEmpty || dets.isEmpty) = true
  · rw [if_pos h1]
  · rw [if_neg h1]
    dsimp only
    by_cases h2 : (tracks.filter (·.is_active)).isEmpty = true
    · rw [if_pos h2]
    · rw [if_neg h2]
      obtain ⟨tys, hty⟩ := detectionTypes_isSome dets hdets
      rw [hty]
      dsimp only
      rw [hsolve]

theorem create_fold_isOk (associated : List Nat) (frame : Int) (now : ℚ) :
    ∀ (l : List (Nat × Detection)) (st : TrackerState),
    (∀ p ∈ l, p.2.get_ball_type.isSome = true) →
    ∃ st2, l.foldlM (create_new_step associated frame now) st = .ok st2 := by
  intro l
  induction l with
  | nil => exact fun st _ => ⟨st, rfl⟩
  | cons p rest ih =>
    intro st hl
    rw [List.foldlM_cons]
    by_cases hc : associated.contains p.1 = true
    · have hstep : create_new_step associated frame now st p = .ok st := by
        unfold create_new_step
        rw [if_pos hc]
      rw [hstep]
      exact ih st (fun q hq => hl q (List.mem_cons_of_mem _ hq))
    · rcases Option.isSome_iff_exists.mp (hl p (List.mem_cons_self ..)) with ⟨bt, hbt⟩
      have hstep : ∃ st1, create_new_step associated frame now st p = .ok st1 := by
        unfold create_new_step
        rw [if_neg hc, hbt]
        exact ⟨_, rfl⟩
      obtain ⟨st1, hstep⟩ := hstep
      rw [hstep]
      exact ih st1 (fun q hq => hl q (List.mem_cons_of_mem _ hq))

theorem create_new_tracks_isOk (st : TrackerState) (assoc : List (Nat × Nat))
    (dets : List Detection) (frame : Int) (now : ℚ)
    (hdets : ∀ d ∈ dets, d.get_ball_type.isSome = true) :
    ∃ st2, create_new_tracks st assoc dets frame now = .ok st2 := by
  unfold create_new_tracks
  exact create_fold_isOk (assoc.map (·.2)) frame now dets.enum st
    (fun p hp => hdets p.2 (enum_snd_mem hp))

/-- C8: if the assignment solver raises an internal error, the
association step returns the empty mapping (for any state whose
detections carry valid class ids), and the frame is still processed to
completion: `update` succeeds, treating every track as unmatched and
every detection as unmatched, so tracking continues on the next frame. -/
theorem solver_failure_empty_associations (st : TrackerState)
    (dets : List Detection) (frame : Int) (now : ℚ) (solve : AssignSolver)
    (hsolve : ∀ m, solve m = none)
    (hdets : ∀ d ∈ dets, d.get_ball_type.isSome = true) :
    associate_detections_to_tracks solve st.config st.tracks dets = .ok []
    ∧ (BallTracker.update st dets frame now solve).isOk = true := by
  refine ⟨associate_failed_solver solve hsolve st.config st.tracks dets hdets, ?_⟩
  unfold BallTracker.update
  by_cases hd : dets.isEmpty = true
  · rw [if_pos hd]
    rfl
  · rw [if_neg hd]
    dsimp only
    rw [show associate_detections_to_tracks solve (predict_all_tracks st now).config
        (predict_all_tracks st now).tracks dets = .ok [] from
      associate_failed_solver solve hsolve _ _ dets hdets]
    dsimp only
    rw [show update_associated_tracks (predict_all_tracks st now) [] dets frame now
        = .ok (predict_all_tracks st now) from rfl]
    dsimp only
    obtain ⟨st3, h3⟩ := create_new_tracks_isOk (predict_all_tracks st now) [] dets frame now hdets
    rw [h3]
    rfl

theorem solver_failure_empty_associations_witness :
    associate_detections_to_tracks (fun _ => none) isoState.config
      isoState.tracks [graceDet] = .ok []
    ∧ (BallTracker.update isoState [graceDet] 2 0 (fun _ => none)).isOk = true :=
  solver_failure_empty_associations isoState [graceDet] 2 0 (fun _ => none)
    (fun _ => rfl) (by decide)

/-! ### C2: determinism and the wall clock -/

/-- C2 (amended): the tracker is deterministic only once the wall-clock
reading is counted among the inputs: two runs of `update` on identical
prior state, detections and frame number always agree on the association
mapping (the cost matrix reads stored track positions, which `predict`
does not touch), and produce identical output tracks whenever the
wall-clock readings coincide; with different readings the Kalman time
step differs and positions and velocities diverge (see the
counterexample). -/
theorem update_deterministic_given_time (st : TrackerState)
    (dets : List Detection) (frame : Int) (solve : AssignSolver) (t1 t2 : ℚ) :
    update_associations st dets t1 solve = update_associations st dets t2 solve
    ∧ (t1 = t2 → BallTracker.update st dets frame t1 solve
        = BallTracker.update st dets frame t2 solve) :=
  ⟨rfl, fun h => by rw [h]⟩

theorem update_deterministic_given_time_witness :
    update_associations clockState [clockDet] 0 lsaSolve
      = update_associations clockState [clockDet] 1 lsaSolve
    ∧ BallTracker.update clockState [clockDet] 2 0 lsaSolve
      = BallTracker.update clockState [clockDet] 2 0 lsaSolve :=
  ⟨(update_deterministic_given_time clockState [clockDet] 2 lsaSolve 0 1).1,
   (update_deterministic_given_time clockState [clockDet] 2 lsaSolve 0 0).2 rfl⟩

set_option maxRecDepth 10000 in
set_option maxHeartbeats 1600000 in
/-- C2 counterexample: the same prior tracker state, the same single
detection and the same frame number, run at wall-clock instants 0 and 1
(the filter's `last_update_time` is 0): the output track's position and
velocity differ between the two runs, because `KalmanFilter.predict`
derives its time step from `time.time()`, which is not part of the
detection set or the track state. -/
theorem update_wall_clock_counterexample :
    (BallTracker.update clockState [clockDet] 2 0 lsaSolve).toOption.map
        (fun r => r.2.map (fun b => (b.current_position, b.velocity)))
      = some [(⟨10001/10002, 0⟩, some ⟨0, 0⟩)]
    ∧ (BallTracker.update clockState [clockDet] 2 1 lsaSolve).toOption.map
        (fun r => r.2.map (fun b => (b.current_position, b.velocity)))
      = some [(⟨20001/20002, 0⟩, some ⟨5000/10001, 0⟩)] :=
  ⟨by decide, by decide⟩

/-! ### C7: parallel trajectory and confidence histories -/

theorem update_position_eqlen (b : TrackedBall) (p : Point) (c : ℚ) (f : Int)
    (h : b.trajectory.length = b.confidence_history.length) :
    (b.update_position p c f).trajectory.length
      = (b.update_position p c f).confidence_history.length := by
  unfold TrackedBall.update_position
  dsimp only
  split
  · simp only [takeLast_length, List.length_append, List.length_cons,
      List.length_nil, h]
  · simp only [List.length_append, List.length_cons, List.length_nil, h]

theorem mem_replaceTrack {tracks : List TrackedBall} {tid : Nat}
    {new b : TrackedBall} (h : b ∈ replaceTrack tracks tid new) :
    b = new ∨ b ∈ tracks := by
  unfold replaceTrack at h
  rcases List.mem_map.mp h with ⟨t, ht, heq⟩
  by_cases hk : (t.track_id == tid) = true
  · rw [if_pos hk] at heq
    exact Or.inl heq.symm
  · rw [if_neg hk] at heq
    exact Or.inr (heq ▸ ht)

theorem update_associated_step_eqlen (dets : List Detection) (frame : Int)
    (now : ℚ) (st st2 : TrackerState) (p : Nat × Nat)
    (hok : update_associated_step dets frame now st p = .ok st2)
    (hinv : ∀ b ∈ st.tracks, b.trajectory.length = b.confidence_history.length) :
    ∀ b ∈ st2.tracks, b.trajectory.length = b.confidence_history.length := by
  unfold update_associated_step at hok
  cases hf : findTrack st.tracks p.1 with
  | none =>
    rw [hf] at hok
    cases hd : dets.get? p.2 <;> rw [hd] at hok <;> cases hok <;> exact hinv
  | some track =>
    have htrackmem : track ∈ st.tracks :=
      List.mem_of_find?_eq_some hf
    rw [hf] at hok
    cases hd : dets.get? p.2 with
    | none => rw [hd] at hok; cases hok; exact hinv
    | some detection =>
      rw [hd] at hok
      dsimp only at hok
      cases hkf : dictFind st.kalman_filters p.1 with
      | none =>
        rw [hkf] at hok
        cases hok
        intro b hb
        rcases mem_replaceTrack hb with rfl | hb2
        · exact update_position_eqlen track _ _ _ (hinv track htrackmem)
        · exact hinv b hb2
      | some kf =>
        rw [hkf] at hok
        dsimp only at hok
        cases hup : kf.update now detection.get_centroid with
        | none => rw [hup] at hok; exact absurd hok (by simp)
        | some r =>
          rw [hup] at hok
          cases hok
          intro b hb
          rcases mem_replaceTrack hb with rfl | hb2
          · exact update_position_eqlen track _ _ _ (hinv track htrackmem)
          · exact hinv b hb2

theorem update_associated_tracks_eqlen (dets : List Detection) (frame : Int)
    (now : ℚ) :
    ∀ (assoc : List (Nat × Nat)) (st st2 : TrackerState),
    update_associated_tracks st assoc dets frame now = .ok st2 →
    (∀ b ∈ st.tracks, b.trajectory.length = b.confidence_history.length) →
    ∀ b ∈ st2.tracks, b.trajectory.length = b.confidence_history.length := by
  intro assoc
  induction assoc with
  | nil =>
    intro st st2 hok hinv
    cases hok
    exact hinv
  | cons p rest ih =>
    intro st st2 hok hinv
    unfold update_associated_tracks at hok
    rw [List.foldlM_cons] at hok
    cases hstep : update_associated_step dets frame now st p with
    | error e => rw [hstep] at hok; exact Except.noConfusion hok
    | ok st1 =>
      rw [hstep] at hok
      exact ih st1 st2 hok (update_associated_step_eqlen dets frame now st st1 p hstep hinv)

theorem create_new_step_eqlen (associated : List Nat) (frame : Int) (now : ℚ)
    (st st2 : TrackerState) (p : Nat × Detection)
    (hok : create_new_step associated frame now st p = .ok st2)
    (hinv : ∀ b ∈ st.tracks, b.trajectory.length = b.confidence_history.length) :
    ∀ b ∈ st2.tracks, b.trajectory.length = b.confidence_history.length := by
  unfold create_new_step at hok
  split at hok
  · cases hok; exact hinv
  · cases hbt : p.2.get_ball_type with
    | none => rw [hbt] at hok; exact absurd hok (by simp)
    | some bt =>
      rw [hbt] at hok
      cases hok
      intro b hb
      rcases List.mem_append.mp hb with hb1 | hb2
      · exact hinv b hb1
      · simp at hb2
        rw [hb2]
        rfl

theorem create_fold_eqlen (associated : List Nat) (frame : Int) (now : ℚ) :
    ∀ (l : List (Nat × Detection)) (st st2 : TrackerState),
    l.foldlM (create_new_step associated frame now) st = .ok st2 →
    (∀ b ∈ st.tracks, b.trajectory.length = b.confidence_history.length) →
    ∀ b ∈ st2.tracks, b.trajectory.length = b.confidence_history.length := by
  intro l
  induction l with
  | nil =>
    intro st st2 hok hinv
    cases hok
    exact hinv
  | cons p rest ih =>
    intro st st2 hok hinv
    rw [List.foldlM_cons] at hok
    cases hstep : create_new_step associated frame now st p with
    | error e => rw [hstep] at hok; exact Except.noConfusion hok
    | ok st1 =>
      rw [hstep] at hok
      exact ih st1 st2 hok
        (create_new_step_eqlen associated frame now st st1 p hstep hinv)

theorem cleanup_tracks_mem {st : TrackerState} {frame : Int} {b : TrackedBall}
    (h : b ∈ (cleanup_lost_tracks st frame).tracks) :
    ∃ b0, b0 ∈ st.tracks ∧ (b = b0 ∨ b = { b0 with is_active := false })
      ∧ (!(!b.is_active && decide (b.last_seen_frame
            < frame - st.config.max_disappeared_frames * 2))) = true := by
  unfold cleanup_lost_tracks at h
  dsimp only at h
  rcases List.mem_filter.mp h with ⟨h1, hcond⟩
  rcases List.mem_map.mp h1 with ⟨b0, hb0, heq⟩
  refine ⟨b0, hb0, ?_, hcond⟩
  by_cases hl : (b0.is_lost frame st.config.max_disappeared_frames) = true
  · rw [if_pos hl] at heq
    exact Or.inr heq.symm
  · rw [if_neg hl] at heq
    exact Or.inl heq.symm

/-- C7: the parallel-history invariant — trajectory and confidence
history of every stored track have equal lengths — is preserved by every
successful `update` call: it holds of every track in the post state and
of every returned track, provided it held of the prior state (new tracks
are created with singleton histories, so it holds from creation on). -/
theorem trajectory_confidence_equal_length (st : TrackerState)
    (dets : List Detection) (frame : Int) (now : ℚ) (solve : AssignSolver)
    (st2 : TrackerState) (out : List TrackedBall)
    (hok : BallTracker.update st dets frame now solve = .ok (st2, out))
    (hinv : ∀ b ∈ st.tracks, b.trajectory.length = b.confidence_history.length) :
    (∀ b ∈ st2.tracks, b.trajectory.length = b.confidence_history.length)
    ∧ ∀ b ∈ out, b.trajectory.length = b.confidence_history.length := by
  have main : ∀ b ∈ st2.tracks, b.trajectory.length = b.confidence_history.length := by
    unfold BallTracker.update at hok
    by_cases hd : dets.isEmpty = true
    · rw [if_pos hd] at hok
      injection hok with hok'
      injection hok' with hst hout
      subst hst
      intro b hb
      rcases cleanup_tracks_mem hb with ⟨b0, hb0, hbeq, _⟩
      have h0 := hinv b0 (by rw [← predict_all_tracks_tracks st now]; exact hb0)
      rcases hbeq with rfl | rfl
      · exact h0
      · exact h0
    · rw [if_neg hd] at hok
      dsimp only at hok
      cases hassoc : associate_detections_to_tracks solve
          (predict_all_tracks st now).config (predict_all_tracks st now).tracks dets with
      | error e => rw [hassoc] at hok; exact Except.noConfusion hok
      | ok assoc =>
        rw [hassoc] at hok
        dsimp only at hok
        cases hupd : update_associated_tracks (predict_all_tracks st now) assoc dets frame now with
        | error e => rw [hupd] at hok; exact Except.noConfusion hok
        | ok stB =>
          rw [hupd] at hok
          dsimp only at hok
          cases hnew : create_new_tracks stB assoc dets frame now with
          | error e => rw [hnew] at hok; exact Except.noConfusion hok
          | ok stC =>
            rw [hnew] at hok
            injection hok with hok'
            injection hok' with hst hout
            subst hst
            have hB := update_associated_tracks_eqlen dets frame now assoc
              (predict_all_tracks st now) stB hupd
              (by rw [predict_all_tracks_tracks]; exact hinv)
            unfold create_new_tracks at hnew
            have hC := create_fold_eqlen (assoc.map (·.2)) frame now dets.enum stB stC hnew hB
            intro b hb
            rcases cleanup_tracks_mem hb with ⟨b0, hb0, hbeq, _⟩
            have h0 := hC b0 hb0
            rcases hbeq with rfl | rfl
            · exact h0
            · exact h0
  refine ⟨main, ?_⟩
  intro b hb
  have hout : out = get_active_tracks st2 := by
    unfold BallTracker.update at hok
    by_cases hd : dets.isEmpty = true
    · rw [if_pos hd] at hok
      injection hok with hok'
      injection hok' with hst hout
      subst hst
      exact hout.symm
    · rw [if_neg hd] at hok
      dsimp only at hok
      cases hassoc : associate_detections_to_tracks solve
          (predict_all_tracks st now).config (predict_all_tracks st now).tracks dets with
      | error e => rw [hassoc] at hok; exact Except.noConfusion hok
      | ok assoc =>
        rw [hassoc] at hok
        dsimp only at hok
        cases hupd : update_associated_tracks (predict_all_tracks st now) assoc dets frame now with
        | error e => rw [hupd] at hok; exact Except.noConfusion hok
        | ok stB =>
          rw [hupd] at hok
          dsimp only at hok
          cases hnew : create_new_tracks stB assoc dets frame now with
          | error e => rw [hnew] at hok; exact Except.noConfusion hok
          | ok stC =>
            rw [hnew] at hok
            injection hok with hok'
            injection hok' with hst hout
            subst hst
            exact hout.symm
  rw [hout] at hb
  exact main b (List.mem_filter.mp hb).1

theorem trajectory_confidence_equal_length_witness :
    ∃ r, BallTracker.update graceState [graceDet] 1 0 lsaSolve = .ok r
      ∧ (∀ b ∈ r.1.tracks, b.trajectory.length = b.confidence_history.length)
      ∧ ∀ b ∈ r.2, b.trajectory.length = b.confidence_history.length := by
  refine ⟨_, rfl, ?_, ?_⟩
  · exact (trajectory_confidence_equal_length graceState [graceDet] 1 0 lsaSolve
      _ _ rfl (by decide)).1
  · exact (trajectory_confidence_equal_length graceState [graceDet] 1 0 lsaSolve
      _ _ rfl (by decide)).2

/-! ### C5: retirement removes stale tracks -/

theorem update_position_track_id (b : TrackedBall) (p : Point) (c : ℚ) (f : Int) :
    (b.update_position p c f).track_id = b.track_id := by
  unfold TrackedBall.update_position
  dsimp only
  split <;> rfl

theorem update_associated_step_mem (dets : List Detection) (frame : Int)
    (now : ℚ) (st st2 : TrackerState) (p : Nat × Nat)
    (hok : update_associated_step dets frame now st p = .ok st2) :
    ∀ b ∈ st2.tracks, b ∈ st.tracks ∨ b.track_id = p.1 := by
  unfold update_associated_step at hok
  cases hf : findTrack st.tracks p.1 with
  | none =>
    rw [hf] at hok
    cases hd : dets.get? p.2 <;> rw [hd] at hok <;> cases hok <;>
      exact fun b hb => Or.inl hb
  | some track =>
    have hf' : st.tracks.find? (fun t => t.track_id == p.1) = some track := hf
    have htid' : track.track_id = p.1 := by
      have h2 := List.find?_some hf'
      simp at h2
      exact h2
    rw [hf] at hok
    cases hd : dets.get? p.2 with
    | none => rw [hd] at hok; cases hok; exact fun b hb => Or.inl hb
    | some detection =>
      rw [hd] at hok
      dsimp only at hok
      cases hkf : dictFind st.kalman_filters p.1 with
      | none =>
        rw [hkf] at hok
        cases hok
        intro b hb
        rcases mem_replaceTrack hb with rfl | hb2
        · exact Or.inr (by rw [update_position_track_id]; exact htid')
        · exact Or.inl hb2
      | some kf =>
        rw [hkf] at hok
        dsimp only at hok
        cases hup : kf.update now detection.get_centroid with
        | none => rw [hup] at hok; exact Except.noConfusion hok
        | some r =>
          rw [hup] at hok
          cases hok
          intro b hb
          rcases mem_replaceTrack hb with rfl | hb2
          · exact Or.inr (by
              show (track.update_position _ _ _).track_id = p.1
              rw [update_position_track_id]
              exact htid')
          · exact Or.inl hb2

theorem update_associated_step_next (dets : List Detection) (frame : Int)
    (now : ℚ) (st st2 : TrackerState) (p : Nat × Nat)
    (hok : update_associated_step dets frame now st p = .ok st2) :
    st2.next_track_id = st.next_track_id := by
  unfold update_associated_step at hok
  cases hf : findTrack st.tracks p.1 with
  | none =>
    rw [hf] at hok
    cases hd : dets.get? p.2 <;> rw [hd] at hok <;> cases hok <;> rfl
  | some track =>
    rw [hf] at hok
    cases hd : dets.get? p.2 with
    | none => rw [hd] at hok; cases hok; rfl
    | some detection =>
      rw [hd] at hok
      dsimp only at hok
      cases hkf : dictFind st.kalman_filters p.1 with
      | none => rw [hkf] at hok; cases hok; rfl
      | some kf =>
        rw [hkf] at hok
        dsimp only at hok
        cases hup : kf.update now detection.get_centroid with
        | none => rw [hup] at hok; exact Except.noConfusion hok
        | some r => rw [hup] at hok; cases hok; rfl

theorem update_associated_tracks_mem (dets : List Detection) (frame : Int)
    (now : ℚ) :
    ∀ (assoc : List (Nat × Nat)) (st st2 : TrackerState),
    update_associated_tracks st assoc dets frame now = .ok st2 →
    (∀ b ∈ st2.tracks, b ∈ st.tracks ∨ b.track_id ∈ assoc.map (·.1))
    ∧ st2.next_track_id = st.next_track_id := by
  intro assoc
  induction assoc with
  | nil =>
    intro st st2 hok
    cases hok
    exact ⟨fun b hb => Or.inl hb, rfl⟩
  | cons p rest ih =>
    intro st st2 hok
    unfold update_associated_tracks at hok
    rw [List.foldlM_cons] at hok
    cases hstep : update_associated_step dets frame now st p with
    | error e => rw [hstep] at hok; exact Except.noConfusion hok
    | ok st1 =>
      rw [hstep] at hok
      rcases ih st1 st2 hok with ⟨hmem, hnext⟩
      refine ⟨?_, by rw [hnext, update_associated_step_next dets frame now st st1 p hstep]⟩
      intro b hb
      rcases hmem b hb with hb1 | hb2
      · rcases update_associated_step_mem dets frame now st st1 p hstep b hb1 with h | h
        · exact Or.inl h
        · exact Or.inr (by simp [h])
      · exact Or.inr (by simp at hb2 ⊢; exact Or.inr hb2)

theorem create_fold_mem (associated : List Nat) (frame : Int) (now : ℚ) :
    ∀ (l : List (Nat × Detection)) (st st2 : TrackerState),
    l.foldlM (create_new_step associated frame now) st = .ok st2 →
    ∀ b ∈ st2.tracks, b ∈ st.tracks ∨ st.next_track_id ≤ b.track_id := by
  intro l
  induction l with
  | nil =>
    intro st st2 hok
    cases hok
    exact fun b hb => Or.inl hb
  | cons p rest ih =>
    intro st st2 hok
    rw [List.foldlM_cons] at hok
    unfold create_new_step at hok
    split at hok
    · cases hstep : (Except.ok st : Except TrackError TrackerState) with
      | _ => exact ih st st2 hok
    · cases hbt : p.2.get_ball_type with
      | none => rw [hbt] at hok; exact Except.noConfusion hok
      | some bt =>
        rw [hbt] at hok
        dsimp only at hok
        intro b hb
        rcases ih _ st2 hok b hb with hb1 | hb2
        · rcases List.mem_append.mp hb1 with hb3 | hb4
          · exact Or.inl hb3
          · simp at hb4
            exact Or.inr (by rw [hb4])
        · dsimp at hb2
          exact Or.inr (by omega)

theorem cleanup_tracks_mem_strong {st : TrackerState} {frame : Int}
    {b : TrackedBall} (h : b ∈ (cleanup_lost_tracks st frame).tracks) :
    ∃ b0, b0 ∈ st.tracks
      ∧ b = (if (b0.is_lost frame st.config.max_disappeared_frames) = true
             then { b0 with is_active := false } else b0)
      ∧ (!(!b.is_active && decide (b.last_seen_frame
            < frame - st.config.max_disappeared_frames * 2))) = true := by
  unfold cleanup_lost_tracks at h
  dsimp only at h
  rcases List.mem_filter.mp h with ⟨h1, hcond⟩
  rcases List.mem_map.mp h1 with ⟨b0, hb0, heq⟩
  exact ⟨b0, hb0, heq.symm, hcond⟩

theorem cleanup_removes_stale (st stC : TrackerState) (frame : Int) (tid : Nat)
    (hcfg : stC.config = st.config)
    (hN : 0 ≤ st.config.max_disappeared_frames)
    (hstale : ∀ b ∈ st.tracks, b.track_id = tid →
        frame - b.last_seen_frame > 2 * st.config.max_disappeared_frames)
    (hmem : ∀ b0 ∈ stC.tracks, b0.track_id = tid → b0 ∈ st.tracks) :
    ∀ b ∈ (cleanup_lost_tracks stC frame).tracks, b.track_id ≠ tid := by
  intro b hb hbtid
  rcases cleanup_tracks_mem_strong hb with ⟨b0, hb0, heq, hcond⟩
  have hid : b0.track_id = tid := by
    by_cases hl : (b0.is_lost frame stC.config.max_disappeared_frames) = true
    · rw [if_pos hl] at heq
      rw [heq] at hbtid
      exact hbtid
    · rw [if_neg hl] at heq
      rw [heq] at hbtid
      exact hbtid
  have hst := hstale b0 (hmem b0 hb0 hid) hid
  have hlost : (b0.is_lost frame stC.config.max_disappeared_frames) = true := by
    unfold TrackedBall.is_lost
    rw [hcfg]
    simp only [decide_eq_true_eq]
    omega
  rw [if_pos hlost] at heq
  subst heq
  rw [hcfg] at hcond
  simp at hcond
  omega

theorem update_associated_step_config (dets : List Detection) (frame : Int)
    (now : ℚ) (st st2 : TrackerState) (p : Nat × Nat)
    (hok : update_associated_step dets frame now st p = .ok st2) :
    st2.config = st.config := by
  unfold update_associated_step at hok
  cases hf : findTrack st.tracks p.1 with
  | none =>
    rw [hf] at hok
    cases hd : dets.get? p.2 <;> rw [hd] at hok <;> cases hok <;> rfl
  | some track =>
    rw [hf] at hok
    cases hd : dets.get? p.2 with
    | none => rw [hd] at hok; cases hok; rfl
    | some detection =>
      rw [hd] at hok
      dsimp only at hok
      cases hkf : dictFind st.kalman_filters p.1 with
      | none => rw [hkf] at hok; cases hok; rfl
      | some kf =>
        rw [hkf] at hok
        dsimp only at hok
        cases hup : kf.update now detection.get_centroid with
        | none => rw [hup] at hok; exact Except.noConfusion hok
        | some r => rw [hup] at hok; cases hok; rfl

theorem update_associated_tracks_config (dets : List Detection) (frame : Int)
    (now : ℚ) :
    ∀ (assoc : List (Nat × Nat)) (st st2 : TrackerState),
    update_associated_tracks st assoc dets frame now = .ok st2 →
    st2.config = st.config := by
  intro assoc
  induction assoc with
  | nil =>
    intro st st2 hok
    cases hok
    rfl
  | cons p rest ih =>
    intro st st2 hok
    unfold update_associated_tracks at hok
    rw [List.foldlM_cons] at hok
    cases hstep : update_associated_step dets frame now st p with
    | error e => rw [hstep] at hok; exact Except.noConfusion hok
    | ok st1 =>
      rw [hstep] at hok
      rw [ih st1 st2 hok,
        update_associated_step_config dets frame now st st1 p hstep]

theorem create_fold_config (associated : List Nat) (frame : Int) (now : ℚ) :
    ∀ (l : List (Nat × Detection)) (st st2 : TrackerState),
    l.foldlM (create_new_step associated frame now) st = .ok st2 →
    st2.config = st.config := by
  intro l
  induction l with
  | nil =>
    intro st st2 hok
    cases hok
    rfl
  | cons p rest ih =>
    intro st st2 hok
    rw [List.foldlM_cons] at hok
    unfold create_new_step at hok
    split at hok
    · exact ih st st2 hok
    · cases hbt : p.2.get_ball_type with
      | none => rw [hbt] at hok; exact Except.noConfusion hok
      | some bt =>
        rw [hbt] at hok
        dsimp only at hok
        rw [ih _ st2 hok]

/-- C5: a track unassociated for more than
`2 * max_disappeared_frames` frames since its `last_seen_frame` is gone
after the next `update`: it is absent from the stored track map
(`get_track_by_id` returns nothing) and from the returned active-track
list.  The freshness hypothesis `tid < next_track_id` is the tracker's
id-allocation invariant; the staleness hypothesis covers every stored
track carrying that id. -/
theorem track_retirement_removes (st : TrackerState) (dets : List Detection)
    (frame : Int) (now : ℚ) (solve : AssignSolver) (st2 : TrackerState)
    (out : List TrackedBall) (tid : Nat)
    (hN : 0 ≤ st.config.max_disappeared_frames)
    (hok : BallTracker.update st dets frame now solve = .ok (st2, out))
    (hstale : ∀ b ∈ st.tracks, b.track_id = tid →
        frame - b.last_seen_frame > 2 * st.config.max_disappeared_frames)
    (hfresh : tid < st.next_track_id)
    (hunassoc : ∀ j, (tid, j) ∉ update_associations st dets now solve) :
    get_track_by_id st2 tid = none ∧ ∀ b ∈ out, b.track_id ≠ tid := by
  have main : (∀ b ∈ st2.tracks, b.track_id ≠ tid)
      ∧ out = get_active_tracks st2 := by
    unfold BallTracker.update at hok
    by_cases hd : dets.isEmpty = true
    · rw [if_pos hd] at hok
      injection hok with hok'
      injection hok' with hst hout
      subst hst
      refine ⟨?_, hout.symm⟩
      exact cleanup_removes_stale st (predict_all_tracks st now) frame tid rfl
        hN hstale (fun b0 hb0 _ => hb0)
    · rw [if_neg hd] at hok
      dsimp only at hok
      cases hassoc : associate_detections_to_tracks solve
          (predict_all_tracks st now).config (predict_all_tracks st now).tracks
          dets with
      | error e => rw [hassoc] at hok; exact Except.noConfusion hok
      | ok assoc =>
        rw [hassoc] at hok
        dsimp only at hok
        cases hupd : update_associated_tracks (predict_all_tracks st now) assoc
            dets frame now with
        | error e => rw [hupd] at hok; exact Except.noConfusion hok
        | ok stB =>
          rw [hupd] at hok
          dsimp only at hok
          cases hnew : create_new_tracks stB assoc dets frame now with
          | error e => rw [hnew] at hok; exact Except.noConfusion hok
          | ok stC =>
            rw [hnew] at hok
            injection hok with hok'
            injection hok' with hst hout
            subst hst
            refine ⟨?_, hout.symm⟩
            have hua : update_associations st dets now solve = assoc := by
              unfold update_associations
              rw [if_neg hd]
              rw [show associate_detections_to_tracks solve st.config
                  (predict_all_tracks st now).tracks dets = .ok assoc from hassoc]
            rcases update_associated_tracks_mem dets frame now assoc _ stB hupd
              with ⟨hBmem, hBnext⟩
            have hBcfg := update_associated_tracks_config dets frame now assoc _ stB hupd
            unfold create_new_tracks at hnew
            have hCmem := create_fold_mem (assoc.map (·.2)) frame now dets.enum
              stB stC hnew
            have hCcfg : stC.config = st.config := by
              rw [create_fold_config (assoc.map (·.2)) frame now dets.enum stB
                stC hnew, hBcfg]
              rfl
            apply cleanup_removes_stale st stC frame tid hCcfg hN hstale
            intro b0 hb0 hid0
            rcases hCmem b0 hb0 with hbB | hge
            · rcases hBmem b0 hbB with hbA | hin
              · rw [predict_all_tracks_tracks] at hbA
                exact hbA
              · exfalso
                rw [hid0] at hin
                rcases List.mem_map.mp hin with ⟨q, hq, hq1⟩
                refine hunassoc q.2 ?_
                rw [hua]
                have : q = (tid, q.2) := by
                  cases q
                  simp at hq1
                  rw [hq1]
                rw [← this]
                exact hq
            · exfalso
              rw [hBnext] at hge
              have hpn : (predict_all_tracks st now).next_track_id
                  = st.next_track_id := rfl
              omega
  rcases main with ⟨key, hout⟩
  constructor
  · unfold get_track_by_id findTrack
    rw [List.find?_eq_none]
    intro b hb
    intro hq
    exact key b hb (by simpa using hq)
  · intro b hb
    rw [hout] at hb
    exact key b (List.mem_filter.mp hb).1

theorem track_retirement_removes_witness :
    ∃ r, BallTracker.update staleState [] 21 0 lsaSolve = .ok r
      ∧ get_track_by_id r.1 1 = none ∧ ∀ b ∈ r.2, b.track_id ≠ 1 := by
  have hun : ∀ j, ((1 : Nat), j) ∉ update_associations staleState [] 0 lsaSolve := by
    intro j h
    exact absurd h (List.not_mem_nil _)
  refine ⟨_, rfl, ?_, ?_⟩
  · exact (track_retirement_removes staleState [] 21 0 lsaSolve _ _ 1 (by decide)
      rfl (by decide) (by decide) hun).1
  · exact (track_retirement_removes staleState [] 21 0 lsaSolve _ _ 1 (by decide)
      rfl (by decide) (by decide) hun).2

/-! ## C9 — update never propagates an exception

Refuted as stated: `Detection.get_ball_type` raises `ValueError` on an
out-of-range class id, and nothing in `BallTracker.update` catches it
(`update_invalid_class_id_raises`).  The amended guarantee
(`update_no_exception_valid_inputs`): with valid class ids and the
Kalman covariance invariant `goodKF` on every stored filter, `update`
returns normally for every solver, detection list and frame — the
`LinAlgError` path is unreachable because the innovation covariance
`H P Hᵀ + r I` of a positive-semidefinite `P` with `r > 0` is
invertible (`inv2_S_isSome`), and `goodKF` is preserved by `predict`
(`predict_goodKF`). -/

theorem inv2_S_isSome (P : Matrix (Fin 4) (Fin 4) ℚ) (r : ℚ) (hr : 0 < r)
    (hsym : P.transpose = P)
    (hpsd : ∀ x : Fin 4 → ℚ, 0 ≤ Matrix.dotProduct x (P.mulVec x)) :
    (inv2 (Hmat * P * Hmat.transpose + r • 1)).isSome = true := by
  have ha := hpsd ![1, 0, 0, 0]
  have hc := hpsd ![0, 1, 0, 0]
  have h3 := hpsd ![P 0 1, -(P 0 0 + r), 0, 0]
  have hb : P 1 0 = P 0 1 := by
    have := congrFun (congrFun hsym 1) 0
    simpa [Matrix.transpose_apply] using this.symm
  simp only [Matrix.mulVec, Matrix.dotProduct, Fin.sum_univ_four,
    Matrix.cons_val_zero, Matrix.cons_val_one, Matrix.head_cons,
    Matrix.cons_val_two, Matrix.tail_cons, Matrix.cons_val_three,
    Matrix.head_fin_const] at ha hc h3
  unfold inv2
  set S : Matrix (Fin 2) (Fin 2) ℚ := Hmat * P * Hmat.transpose + r • 1 with hS
  dsimp only
  have e00 : S 0 0 = P 0 0 + r := by
    rw [hS]
    simp only [Matrix.add_apply, Matrix.smul_apply, Matrix.one_apply_eq,
      smul_eq_mul, mul_one, Matrix.mul_apply, Fin.sum_univ_four, Hmat,
      Matrix.of_apply, Matrix.cons_val', Matrix.cons_val_zero,
      Matrix.cons_val_one, Matrix.head_cons, Matrix.transpose_apply,
      Matrix.empty_val', Matrix.cons_val_fin_one, Matrix.head_fin_const,
      Matrix.cons_val_two, Matrix.tail_cons, Matrix.cons_val_three, one_mul,
      zero_mul, mul_zero, add_zero, zero_add]
  have e01 : S 0 1 = P 0 1 := by
    rw [hS]
    simp only [Matrix.add_apply, Matrix.smul_apply, Matrix.one_apply,
      smul_eq_mul, mul_one, Matrix.mul_apply, Fin.sum_univ_four, Hmat,
      Matrix.of_apply, Matrix.cons_val', Matrix.cons_val_zero,
      Matrix.cons_val_one, Matrix.head_cons, Matrix.transpose_apply,
      Matrix.empty_val', Matrix.cons_val_fin_one, Matrix.head_fin_const,
      Matrix.cons_val_two, Matrix.tail_cons, Matrix.cons_val_three, one_mul,
      zero_mul, mul_zero, add_zero, zero_add]
    norm_num
  have e10 : S 1 0 = P 1 0 := by
    rw [hS]
    simp only [Matrix.add_apply, Matrix.smul_apply, Matrix.one_apply,
      smul_eq_mul, mul_one, Matrix.mul_apply, Fin.sum_univ_four, Hmat,
      Matrix.of_apply, Matrix.cons_val', Matrix.cons_val_zero,
      Matrix.cons_val_one, Matrix.head_cons, Matrix.transpose_apply,
      Matrix.empty_val', Matrix.cons_val_fin_one, Matrix.head_fin_const,
      Matrix.cons_val_two, Matrix.tail_cons, Matrix.cons_val_three, one_mul,
      zero_mul, mul_zero, add_zero, zero_add]
    norm_num
  have e11 : S 1 1 = P 1 1 + r := by
    rw [hS]
    simp only [Matrix.add_apply, Matrix.smul_apply, Matrix.one_apply_eq,
      smul_eq_mul, mul_one, Matrix.mul_apply, Fin.sum_univ_four, Hmat,
      Matrix.of_apply, Matrix.cons_val', Matrix.cons_val_zero,
      Matrix.cons_val_one, Matrix.head_cons, Matrix.transpose_apply,
      Matrix.empty_val', Matrix.cons_val_fin_one, Matrix.head_fin_const,
      Matrix.cons_val_two, Matrix.tail_cons, Matrix.cons_val_three, one_mul,
      zero_mul, mul_zero, add_zero, zero_add]
  rw [e00, e01, e10, e11, hb]
  rw [hb] at h3
  have ha' : 0 ≤ P 0 0 := by linarith [ha]
  have hc' : 0 ≤ P 1 1 := by linarith [hc]
  have hdet : ¬((P 0 0 + r) * (P 1 1 + r) - P 0 1 * P 0 1 = 0) := by
    intro hzero
    have hb2 : P 0 1 * P 0 1 = (P 0 0 + r) * (P 1 1 + r) := by linarith
    have h4 : 0 ≤ P 0 0 * (P 0 1 * P 0 1) - 2 * (P 0 1 * P 0 1) * (P 0 0 + r)
        + P 1 1 * ((P 0 0 + r) * (P 0 0 + r)) := by nlinarith [h3]
    rw [hb2] at h4
    have h5 : P 0 0 * ((P 0 0 + r) * (P 1 1 + r))
        - 2 * ((P 0 0 + r) * (P 1 1 + r)) * (P 0 0 + r)
        + P 1 1 * ((P 0 0 + r) * (P 0 0 + r))
        = -(r * ((P 0 0 + r) * (P 0 0 + P 1 1 + 2 * r))) := by ring
    rw [h5] at h4
    have h6 : 0 < r * ((P 0 0 + r) * (P 0 0 + P 1 1 + 2 * r)) :=
      mul_pos hr (mul_pos (by linarith) (by linarith))
    linarith
  rw [if_neg hdet]
  rfl

theorem predict_P_spec (kf : KalmanFilter) (now : ℚ) :
    (kf.predict now).1.P = Fmat (now - kf.last_update_time) * kf.P *
      (Fmat (now - kf.last_update_time)).transpose + kf.process_noise • 1 := rfl

theorem predict_goodP (kf : KalmanFilter) (now : ℚ)
    (hq : 0 ≤ kf.process_noise) (hsym : kf.P.transpose = kf.P)
    (hpsd : ∀ x : Fin 4 → ℚ, 0 ≤ Matrix.dotProduct x (kf.P.mulVec x)) :
    ((kf.predict now).1.P.transpose = (kf.predict now).1.P)
    ∧ ∀ x : Fin 4 → ℚ,
        0 ≤ Matrix.dotProduct x ((kf.predict now).1.P.mulVec x) := by
  rw [predict_P_spec]
  set dt := now - kf.last_update_time with hdt
  constructor
  · rw [Matrix.transpose_add, Matrix.transpose_smul, Matrix.transpose_one,
      Matrix.transpose_mul, Matrix.transpose_mul, Matrix.transpose_transpose,
      hsym, ← Matrix.mul_assoc]
  · intro x
    have hu := hpsd ![x 0, x 1, dt * x 0 + x 2, dt * x 1 + x 3]
    simp only [Matrix.mulVec, Matrix.dotProduct, Fin.sum_univ_four,
      Matrix.cons_val_zero, Matrix.cons_val_one, Matrix.head_cons,
      Matrix.cons_val_two, Matrix.tail_cons, Matrix.cons_val_three,
      Matrix.head_fin_const, Matrix.add_apply, Matrix.smul_apply,
      Matrix.one_apply, Matrix.mul_apply, Fmat, Matrix.of_apply,
      Matrix.cons_val', Matrix.empty_val', Matrix.cons_val_fin_one,
      Matrix.transpose_apply, smul_eq_mul, Fin.reduceEq, reduceIte,
      mul_zero, zero_mul, add_zero, zero_add, mul_one, one_mul] at hu ⊢
    nlinarith [hu, mul_nonneg hq (sq_nonneg (x 0)),
      mul_nonneg hq (sq_nonneg (x 1)), mul_nonneg hq (sq_nonneg (x 2)),
      mul_nonneg hq (sq_nonneg (x 3))]

theorem predict_goodKF (kf : KalmanFilter) (now : ℚ) (h : goodKF kf) :
    goodKF ((kf.predict now).1) := by
  obtain ⟨hq, hr, hsym, hpsd⟩ := h
  obtain ⟨h1, h2⟩ := predict_goodP kf now hq hsym hpsd
  exact ⟨hq, hr, h1, h2⟩

theorem kf_update_isSome (kf : KalmanFilter) (now : ℚ) (z : Point)
    (h : goodKF kf) : (kf.update now z).isSome = true := by
  obtain ⟨hq, hr, hsym, hpsd⟩ := h
  have hinv := inv2_S_isSome kf.P kf.measurement_noise hr hsym hpsd
  unfold KalmanFilter.update
  rcases Option.isSome_iff_exists.mp hinv with ⟨Sinv, hSinv⟩
  rw [show kf.Rmat = kf.measurement_noise • 1 from rfl]
  dsimp only
  rw [hSinv]
  rfl

theorem dictFind_mem {l : List (Nat × α)} {k : Nat} {v : α}
    (h : dictFind l k = some v) : ∃ p ∈ l, p.2 = v := by
  unfold dictFind at h
  cases hf : l.find? (fun p => p.1 == k) with
  | none => rw [hf] at h; simp at h
  | some p =>
    rw [hf] at h
    simp at h
    exact ⟨p, List.mem_of_find?_eq_some hf, h⟩

theorem dictFind_upsert_ne (l : List (Nat × α)) (k q : Nat) (v : α)
    (h : ¬ q = k) : dictFind (dictUpsert l k v) q = dictFind l q := by
  have hkq : (k == q) = false := beq_eq_false_iff_ne.mpr (fun hh => h hh.symm)
  unfold dictUpsert
  split
  · rename_i hany
    clear hany
    unfold dictFind
    have hcomp : ((fun p => p.1 == q) ∘ (fun p =>
        if p.1 == k then ((k, v) : Nat × α) else p)) = (fun p => p.1 == q) := by
      funext p
      by_cases hp : (p.1 == k) = true
      · simp only [Function.comp_apply, if_pos hp]
        rw [show p.1 = k from eq_of_beq hp]
      · simp only [Function.comp_apply, if_neg hp]
    rw [List.find?_map, hcomp]
    cases hf : l.find? (fun p => p.1 == q) with
    | none => rfl
    | some p =>
      have hpq : (p.1 == q) = true := by simpa using List.find?_some hf
      have hpk2 : ¬ p.1 = k := by
        rw [eq_of_beq hpq]
        exact h
      simp [hpk2]
  · unfold dictFind
    rw [List.find?_append]
    cases hf : l.find? (fun p => p.1 == q) with
    | some p => rfl
    | none =>
      have hone : ([((k, v) : Nat × α)].find? (fun p => p.1 == q)) = none := by
        rw [List.find?_cons_of_neg]
        · rfl
        · simp [hkq]
      rw [hone]
      rfl

theorem dictUpsert_keys (l : List (Nat × α)) (k : Nat) (v : α)
    (h : (l.map (·.1)).Nodup) : ((dictUpsert l k v).map (·.1)).Nodup := by
  unfold dictUpsert
  split
  · have hkeys : (l.map (fun p => if p.1 == k then (k, v) else p)).map (·.1)
        = l.map (·.1) := by
      rw [List.map_map]
      apply List.map_congr_left
      intro p _
      by_cases hp : (p.1 == k) = true
      · simp [hp, (eq_of_beq hp).symm]
      · have hp' : ¬ p.1 = k := by simpa using hp
        simp [hp']
    rw [hkeys]
    exact h
  · rename_i hany
    rw [List.map_append]
    rw [List.nodup_append]
    refine ⟨h, by simp, ?_⟩
    intro a ha hb
    simp at hb
    rw [hb] at ha
    apply hany
    rcases List.mem_map.mp ha with ⟨p, hp, hpk⟩
    exact List.any_eq_true.mpr ⟨p, hp, by simp [hpk]⟩

theorem goodKF_init (p : Point) (q r now : ℚ) (hq : 0 ≤ q) (hr : 0 < r) :
    goodKF (KalmanFilter.init p q r now) := by
  refine ⟨hq, hr, ?_, ?_⟩
  · show ((1000 : ℚ) • (1 : Matrix (Fin 4) (Fin 4) ℚ)).transpose
      = (1000 : ℚ) • (1 : Matrix (Fin 4) (Fin 4) ℚ)
    rw [Matrix.transpose_smul, Matrix.transpose_one]
  · intro x
    show 0 ≤ Matrix.dotProduct x
      (((1000 : ℚ) • (1 : Matrix (Fin 4) (Fin 4) ℚ)).mulVec x)
    rw [Matrix.smul_mulVec_assoc, Matrix.one_mulVec, Matrix.dotProduct_smul,
      smul_eq_mul]
    have h0 : 0 ≤ Matrix.dotProduct x x := by
      unfold Matrix.dotProduct
      exact Finset.sum_nonneg (fun i _ => mul_self_nonneg (x i))
    nlinarith [h0]

theorem predict_all_good (st : TrackerState) (now : ℚ)
    (h : ∀ p ∈ st.kalman_filters, goodKF p.2) :
    ∀ p ∈ (predict_all_tracks st now).kalman_filters, goodKF p.2 := by
  intro p hp
  unfold predict_all_tracks at hp
  dsimp only at hp
  rcases List.mem_map.mp hp with ⟨p0, hp0, heq⟩
  have hg := h p0 hp0
  cases hft : findTrack st.tracks p0.1 with
  | none =>
    rw [hft] at heq
    dsimp only at heq
    rw [← heq]
    exact hg
  | some t =>
    rw [hft] at heq
    dsimp only at heq
    by_cases hact : t.is_active = true
    · rw [if_pos hact] at heq
      rw [← heq]
      exact predict_goodKF p0.2 now hg
    · rw [if_neg hact] at heq
      rw [← heq]
      exact hg

theorem foldlM_option_preserves {β γ : Type} (f : β → γ → Option β)
    (Pr : β → Prop)
    (hstep : ∀ b c b', Pr b → f b c = some b' → Pr b') :
    ∀ (l : List γ) (b b' : β), Pr b → l.foldlM f b = some b' → Pr b' := by
  intro l
  induction l with
  | nil =>
    intro b b' hb h
    rw [List.foldlM_nil] at h
    cases h
    exact hb
  | cons c rest ih =>
    intro b b' hb h
    rw [List.foldlM_cons] at h
    cases hf : f b c with
    | none =>
      rw [hf] at h
      exact Option.noConfusion h
    | some b1 =>
      rw [hf] at h
      exact ih b1 b' (hstep b c b1 hb hf) h

theorem buildAssociations_keys (ids : List Nat) (cost : List (List (Option ℚ)))
    (raw : List (Nat × Nat)) (assoc : List (Nat × Nat))
    (h : buildAssociations ids cost raw = some assoc) :
    (assoc.map (·.1)).Nodup := by
  unfold buildAssociations at h
  refine foldlM_option_preserves _ (fun acc => (acc.map (·.1)).Nodup) ?_
    raw [] assoc List.nodup_nil h
  intro b c b' hb hf
  cases hlc : lookupCost cost c.1 c.2 with
  | none =>
    rw [hlc] at hf
    exact Option.noConfusion hf
  | some oc =>
    rw [hlc] at hf
    cases oc with
    | none =>
      have hf' : some b = some b' := hf
      cases hf'
      exact hb
    | some v =>
      dsimp only at hf
      cases hid : ids.get? c.1 with
      | none =>
        rw [hid] at hf
        exact Option.noConfusion hf
      | some tid =>
        rw [hid] at hf
        have hf' : some (dictUpsert b tid c.2) = some b' := hf
        cases hf'
        exact dictUpsert_keys b tid c.2 hb

theorem foldlM_except_suffix {ε β γ : Type} (f : β → γ → Except ε β)
    (Inv : List γ → β → Prop)
    (hstep : ∀ c rest b, Inv (c :: rest) b →
      ∃ b', f b c = .ok b' ∧ Inv rest b') :
    ∀ (l : List γ) (b : β), Inv l b → ∃ b', l.foldlM f b = .ok b' := by
  intro l
  induction l with
  | nil =>
    intro b _
    exact ⟨b, rfl⟩
  | cons c rest ih =>
    intro b hb
    obtain ⟨b1, hb1, hinv1⟩ := hstep c rest b hb
    obtain ⟨b', hb'⟩ := ih b1 hinv1
    refine ⟨b', ?_⟩
    rw [List.foldlM_cons, hb1]
    exact hb'

theorem foldlM_except_ok {ε β γ : Type} (f : β → γ → Except ε β) :
    ∀ (l : List γ), (∀ b c, c ∈ l → ∃ b', f b c = .ok b') →
    ∀ b, ∃ b', l.foldlM f b = .ok b' := by
  intro l
  induction l with
  | nil =>
    intro _ b
    exact ⟨b, rfl⟩
  | cons c rest ih =>
    intro hstep b
    obtain ⟨b1, hb1⟩ := hstep b c (List.mem_cons_self c rest)
    obtain ⟨b', hb'⟩ :=
      ih (fun b2 c2 hc2 => hstep b2 c2 (List.mem_cons_of_mem _ hc2)) b1
    refine ⟨b', ?_⟩
    rw [List.foldlM_cons, hb1]
    exact hb'

theorem update_step_findkf (dets : List Detection) (frame : Int) (now : ℚ)
    (b : TrackerState) (c : Nat × Nat) (b' : TrackerState)
    (hok : update_associated_step dets frame now b c = .ok b')
    (q : Nat) (hne : ¬ q = c.1) :
    dictFind b'.kalman_filters q = dictFind b.kalman_filters q := by
  unfold update_associated_step at hok
  cases hft : findTrack b.tracks c.1 with
  | none =>
    rw [hft] at hok
    have hok' : Except.ok b = Except.ok b' := hok
    cases hok'
    rfl
  | some track =>
    rw [hft] at hok
    cases hd : dets.get? c.2 with
    | none =>
      rw [hd] at hok
      have hok' : Except.ok b = Except.ok b' := hok
      cases hok'
      rfl
    | some detection =>
      rw [hd] at hok
      cases hkfc : dictFind b.kalman_filters c.1 with
      | none =>
        rw [hkfc] at hok
        dsimp only at hok
        have hok' := Except.ok.inj hok
        rw [← hok']
      | some kf =>
        rw [hkfc] at hok
        dsimp only at hok
        cases hku : kf.update now detection.get_centroid with
        | none =>
          rw [hku] at hok
          exact Except.noConfusion hok
        | some kp =>
          rw [hku] at hok
          obtain ⟨kf2, pos⟩ := kp
          dsimp only at hok
          have hok' := Except.ok.inj hok
          rw [← hok']
          exact dictFind_upsert_ne b.kalman_filters c.1 q kf2 hne

theorem update_step_ok (dets : List Detection) (frame : Int) (now : ℚ)
    (b : TrackerState) (c : Nat × Nat)
    (hkf : ∀ kf, dictFind b.kalman_filters c.1 = some kf → goodKF kf) :
    ∃ b', update_associated_step dets frame now b c = .ok b' := by
  unfold update_associated_step
  cases hft : findTrack b.tracks c.1 with
  | none =>
    exact ⟨b, rfl⟩
  | some track =>
    cases hd : dets.get? c.2 with
    | none =>
      exact ⟨b, rfl⟩
    | some detection =>
      cases hkfc : dictFind b.kalman_filters c.1 with
      | none =>
        exact ⟨_, rfl⟩
      | some kf =>
        have hgood : goodKF kf := hkf kf hkfc
        have hupd := kf_update_isSome kf now detection.get_centroid hgood
        rcases Option.isSome_iff_exists.mp hupd with ⟨kp, hkp⟩
        dsimp only
        rw [hkp]
        exact ⟨_, rfl⟩

theorem update_assoc_ok (dets : List Detection) (frame : Int) (now : ℚ)
    (assoc : List (Nat × Nat)) (st : TrackerState)
    (hnd : (assoc.map (·.1)).Nodup)
    (hkf : ∀ pr ∈ assoc, ∀ kf,
      dictFind st.kalman_filters pr.1 = some kf → goodKF kf) :
    ∃ st', update_associated_tracks st assoc dets frame now = .ok st' := by
  unfold update_associated_tracks
  refine foldlM_except_suffix (update_associated_step dets frame now)
    (fun rest s => (rest.map (fun x => x.1)).Nodup ∧
      ∀ pr ∈ rest, ∀ kf, dictFind s.kalman_filters pr.1 = some kf → goodKF kf)
    ?_ assoc st ⟨hnd, hkf⟩
  intro c rest b hb
  obtain ⟨hbnd, hbkf⟩ := hb
  simp only [List.map_cons, List.nodup_cons] at hbnd
  obtain ⟨hcnot, hndrest⟩ := hbnd
  obtain ⟨b1, hb1⟩ := update_step_ok dets frame now b c
    (fun kf hf => hbkf c (List.mem_cons_self _ _) kf hf)
  refine ⟨b1, hb1, hndrest, ?_⟩
  intro pr hpr kf hfind
  have hne : ¬ pr.1 = c.1 := fun he =>
    hcnot (he ▸ List.mem_map_of_mem _ hpr)
  rw [update_step_findkf dets frame now b c b1 hb1 pr.1 hne] at hfind
  exact hbkf pr (List.mem_cons_of_mem _ hpr) kf hfind

theorem create_new_ok (st : TrackerState) (assoc : List (Nat × Nat))
    (dets : List Detection) (frame : Int) (now : ℚ)
    (h : ∀ d ∈ dets, (Detection.get_ball_type d).isSome = true) :
    ∃ st', create_new_tracks st assoc dets frame now = .ok st' := by
  unfold create_new_tracks
  refine foldlM_except_ok _ dets.enum ?_ st
  intro b c hc
  have hc2 : c.2 ∈ dets := by
    have hm := List.mem_map_of_mem Prod.snd hc
    rwa [List.enum_map_snd] at hm
  unfold create_new_step
  by_cases ha : (assoc.map (fun x => x.2)).contains c.1 = true
  · rw [if_pos ha]
    exact ⟨b, rfl⟩
  · rw [if_neg ha]
    cases hbt : c.2.get_ball_type with
    | none =>
      have hv := h c.2 hc2
      rw [hbt] at hv
      simp at hv
    | some bt =>
      exact ⟨_, rfl⟩

theorem associate_ok_nodup (solve : AssignSolver) (cfg : TrackingConfig)
    (tracks : List TrackedBall) (dets : List Detection)
    (hdets : ∀ d ∈ dets, d.get_ball_type.isSome = true) :
    ∃ a, associate_detections_to_tracks solve cfg tracks dets = .ok a ∧
      (a.map (fun x => x.1)).Nodup := by
  unfold associate_detections_to_tracks
  by_cases h1 : (tracks.isEmpty || dets.isEmpty) = true
  · rw [if_pos h1]
    exact ⟨[], rfl, List.nodup_nil⟩
  · rw [if_neg h1]
    dsimp only
    by_cases h2 : (tracks.filter (·.is_active)).isEmpty = true
    · rw [if_pos h2]
      exact ⟨[], rfl, List.nodup_nil⟩
    · rw [if_neg h2]
      obtain ⟨tys, hty⟩ := detectionTypes_isSome dets hdets
      rw [hty]
      dsimp only
      cases hs : solve (buildCostMatrix cfg (List.filter (fun t => t.is_active)
          tracks) dets tys) with
      | none =>
        exact ⟨[], rfl, List.nodup_nil⟩
      | some raw =>
        dsimp only
        cases hb : buildAssociations ((List.filter (fun t => t.is_active)
            tracks).map (fun t => t.track_id)) (buildCostMatrix cfg
            (List.filter (fun t => t.is_active) tracks) dets tys) raw with
        | none =>
          exact ⟨[], rfl, List.nodup_nil⟩
        | some a =>
          exact ⟨a, rfl, buildAssociations_keys
            ((List.filter (fun t => t.is_active) tracks).map
              (fun t => t.track_id))
            (buildCostMatrix cfg (List.filter (fun t => t.is_active) tracks)
              dets tys) raw a hb⟩

/-- C9: amended — `BallTracker.update` propagates no exception provided
every detection carries a valid `BallType` class id and every stored
Kalman filter satisfies the covariance invariant `goodKF` (true of all
filters the tracker itself creates); without the class-id proviso the
claim is false: an invalid class id raises `ValueError` out of `update`
(see `update_invalid_class_id_raises`). -/
theorem update_no_exception_valid_inputs (solve : AssignSolver)
    (st : TrackerState) (dets : List Detection) (frame : Int) (now : ℚ)
    (hdets : ∀ d ∈ dets, (Detection.get_ball_type d).isSome = true)
    (hkf : ∀ p ∈ st.kalman_filters, goodKF p.2) :
    ∃ out, BallTracker.update st dets frame now solve = .ok out := by
  unfold BallTracker.update
  by_cases hemp : dets.isEmpty = true
  · rw [if_pos hemp]
    exact ⟨_, rfl⟩
  · rw [if_neg hemp]
    dsimp only
    have hkf1 : ∀ p ∈ (predict_all_tracks st now).kalman_filters, goodKF p.2 :=
      predict_all_good st now hkf
    obtain ⟨assoc, hassoc, hnodup⟩ := associate_ok_nodup solve
      (predict_all_tracks st now).config (predict_all_tracks st now).tracks
      dets hdets
    rw [hassoc]
    dsimp only
    obtain ⟨st2, hst2⟩ := update_assoc_ok dets frame now assoc
      (predict_all_tracks st now) hnodup
      (fun pr _ kf hfind => by
        obtain ⟨q, hq, he⟩ := dictFind_mem hfind
        exact he ▸ hkf1 q hq)
    rw [hst2]
    dsimp only
    obtain ⟨st3, hst3⟩ := create_new_ok st2 assoc dets frame now hdets
    rw [hst3]
    exact ⟨_, rfl⟩

/-- C9 counterexample: a single detection with class id 99 (no such
`BallType`) makes `BallTracker.update` raise `ValueError` out of
`_create_new_tracks` — the exception is not caught anywhere in `update`,
refuting the unconditional "never propagates an exception" reading. -/
theorem update_invalid_class_id_raises :
    errorOf (BallTracker.update (TrackerState.init defaultTrackingConfig)
      [badDet] 1 0 lsaSolve) = some .valueError := by decide

/-- C9 witness: the amended theorem applied to the concrete `psdState`
(one active track with a freshly initialised filter) and one valid
detection. -/
theorem update_no_exception_valid_inputs_witness :
    ∃ out, BallTracker.update psdState [graceDet] 1 0 lsaSolve = .ok out :=
  update_no_exception_valid_inputs lsaSolve psdState [graceDet] 1 0
    (by decide)
    (by
      intro p hp
      have hp' : p = (1, KalmanFilter.init ⟨0, 0⟩ 0 1 0) :=
        List.mem_singleton.mp hp
      rw [hp']
      exact goodKF_init ⟨0, 0⟩ 0 1 0 le_rfl one_pos)
